import Mathlib

/-!
Verification of the custom timetable library (src/custom_timetables.py).

The module computes occurrence instants for recurring schedules from
civil-calendar rules.  We shallowly embed the civil-time layer (the parts of
the pendulum library the code relies on) as a record of calendar fields with
field-normalising day/minute arithmetic, and embed each timetable class as a
parameter record plus executable evaluator functions translated line by line
from the Python source.  All instants are modelled at one fixed UTC offset
(the spec delegates timezone/DST arithmetic to an external civil-time
library); `pendulum.now` is passed in as an explicit argument.  Python
`while` loops that have no syntactic bound are embedded with an explicit
fuel argument; returning `none` means the loop has not finished within
`fuel` iterations.
-/

/-- A civil datetime (the embedding of a `pendulum.DateTime` at a fixed
offset): year, month, day, hour, minute, second.  Sub-second precision is
not modelled (the code zeroes microseconds at every construction site). -/
structure PDateTime where
  year : Int
  month : Nat
  day : Nat
  hour : Nat
  minute : Nat
  second : Nat
deriving Repr, DecidableEq

/-- Gregorian leap-year test. -/
def isLeap (y : Int) : Bool := y % 4 == 0 && (y % 100 != 0 || y % 400 == 0)

/-- Number of days in a month of the proleptic Gregorian calendar. -/
def daysInMonth (y : Int) (m : Nat) : Nat :=
  if m = 2 then (if isLeap y then 29 else 28)
  else if m = 4 ∨ m = 6 ∨ m = 9 ∨ m = 11 then 30
  else 31

/-- The calendar fields are in range (what pendulum guarantees for every
datetime it hands out). -/
def PDateTime.Valid (d : PDateTime) : Prop :=
  1 ≤ d.month ∧ d.month ≤ 12 ∧ 1 ≤ d.day ∧ d.day ≤ daysInMonth d.year d.month ∧
    d.hour < 24 ∧ d.minute < 60 ∧ d.second < 60

instance (d : PDateTime) : Decidable d.Valid := by
  unfold PDateTime.Valid; infer_instance

/-- Injective linearisation of the date part; for in-range fields it is
strictly monotone in lexicographic (year, month, day) order. -/
def dateKey (d : PDateTime) : Int := (d.year * 13 + d.month) * 32 + d.day

/-- Seconds since midnight. -/
def timeKey (d : PDateTime) : Nat := (d.hour * 60 + d.minute) * 60 + d.second

/-- Linearisation of a datetime: comparisons of valid `PDateTime`s through
`key` agree with pendulum datetime comparisons. -/
def key (d : PDateTime) : Int := dateKey d * 86400 + timeKey d

/-- Successor day with month/year carrying (`pendulum .add(days=1)`). -/
def succDay (d : PDateTime) : PDateTime :=
  if d.day < daysInMonth d.year d.month then { d with day := d.day + 1 }
  else if d.month < 12 then { d with month := d.month + 1, day := 1 }
  else { d with year := d.year + 1, month := 1, day := 1 }

/-- Predecessor day with month/year borrowing (`pendulum .subtract(days=1)`). -/
def predDay (d : PDateTime) : PDateTime :=
  if 1 < d.day then { d with day := d.day - 1 }
  else if 1 < d.month then
    { d with month := d.month - 1, day := daysInMonth d.year (d.month - 1) }
  else { d with year := d.year - 1, month := 12, day := 31 }

/-- Embedding of pendulum `.add(days=n)`. -/
def addDays : PDateTime → Nat → PDateTime
  | d, 0 => d
  | d, n + 1 => addDays (succDay d) n

/-- Embedding of pendulum `.subtract(days=n)`. -/
def subDays : PDateTime → Nat → PDateTime
  | d, 0 => d
  | d, n + 1 => subDays (predDay d) n

/-- Embedding of pendulum `.add(minutes=n)`: minute/hour arithmetic with day carrying. -/
def addMinutes (d : PDateTime) (n : Nat) : PDateTime :=
  let tot := d.hour * 60 + d.minute + n
  addDays ⟨d.year, d.month, d.day, tot % 1440 / 60, tot % 60, d.second⟩ (tot / 1440)

/-- Day-of-week with Monday = 0 .. Sunday = 6 (the convention the source
code documents for `pendulum day_of_week`), computed from the standard
civil day-number formula. -/
def dow (d : PDateTime) : Nat :=
  let y : Int := if d.month ≤ 2 then d.year - 1 else d.year
  let era : Int := Int.fdiv y 400
  let yoe : Int := y - era * 400
  let mp : Nat := (d.month + 9) % 12
  let doy : Int := (153 * (mp : Int) + 2) / 5 + d.day - 1
  let doe : Int := yoe * 365 + yoe / 4 - yoe / 100 + doy
  (((era * 146097 + doe - 719468) + 3) % 7).toNat

deriving instance DecidableEq for Except

/-- Airflow `DataInterval` (the field `end` is called `stop` here because
`end` is a Lean keyword). -/
structure DataInterval where
  start : PDateTime
  stop : PDateTime
deriving Repr, DecidableEq

/-- Airflow `TimeRestriction`. -/
structure TimeRestriction where
  earliest : Option PDateTime
  latest : Option PDateTime
  catchup : Bool
deriving Repr, DecidableEq

/-- The baseline-resolution lines duplicated verbatim at the top of every
`next_dagrun_info` except `EveryNInterval`'s:
`baseline = restriction.earliest or now; if not catchup: baseline =
max(baseline, now); after = baseline if last is None else last.end; if not
catchup and after < now: after = now`. -/
def resolveAfter (now : PDateTime) (r : TimeRestriction)
    (last : Option DataInterval) : PDateTime :=
  let baseline := r.earliest.getD now
  let baseline := if !r.catchup && key baseline < key now then now else baseline
  match last with
  | none => baseline
  | some l => if !r.catchup && key l.stop < key now then now else l.stop

/-- The two baseline lines shared by every `next_dagrun_info`:
`baseline = restriction.earliest or now; if not restriction.catchup:
baseline = max(baseline, now)`. -/
def baselineResolved (now : PDateTime) (r : TimeRestriction) : PDateTime :=
  let baseline := r.earliest.getD now
  if !r.catchup && key baseline < key now then now else baseline

/-- Parameters of the `MonthlyLastDay` timetable (last day of each month at
hour:minute:second). -/
structure MonthlyLastDay where
  hour : Nat
  minute : Nat
  second : Nat
  tz : String
deriving Repr, DecidableEq

namespace MonthlyLastDay

/-- Embedding of `MonthlyLastDay._get_last_day`: first of the next month, minus one day,
with the time fields replaced. -/
def getLastDay (t : MonthlyLastDay) (year : Int) (month : Nat) : PDateTime :=
  let nextMonth : PDateTime :=
    if month = 12 then ⟨year + 1, 1, 1, 0, 0, 0⟩ else ⟨year, month + 1, 1, 0, 0, 0⟩
  let lastDay := predDay nextMonth
  { lastDay with hour := t.hour, minute := t.minute, second := t.second }

/-- Embedding of `MonthlyLastDay.infer_manual_data_interval`. -/
def inferManualDataInterval (t : MonthlyLastDay) (runAfter : PDateTime) : DataInterval :=
  let lastDay := t.getLastDay runAfter.year runAfter.month
  let lastDay :=
    if key runAfter < key lastDay then
      if runAfter.month = 1 then t.getLastDay (runAfter.year - 1) 12
      else t.getLastDay runAfter.year (runAfter.month - 1)
    else lastDay
  ⟨lastDay, addMinutes lastDay 60⟩

end MonthlyLastDay

/-- Parameters of the `WeeklyOnDay` timetable (weekly on a weekday at
hour:minute:second). -/
structure WeeklyOnDay where
  weekday : Nat
  hour : Nat
  minute : Nat
  second : Nat
  tz : String
deriving Repr, DecidableEq

namespace WeeklyOnDay

/-- Embedding of `WeeklyOnDay._get_next_weekday`: `days_ahead = (weekday - after.day_of_week
+ 7) % 7; if days_ahead == 0 and after.hour >= hour and after.minute >= minute:
days_ahead = 7; return after.add(days=days_ahead).replace(...)`. -/
def getNextWeekday (t : WeeklyOnDay) (after : PDateTime) : PDateTime :=
  let daysAhead := (t.weekday + 7 - dow after) % 7
  let daysAhead :=
    if daysAhead = 0 ∧ t.hour ≤ after.hour ∧ t.minute ≤ after.minute then 7
    else daysAhead
  { addDays after daysAhead with hour := t.hour, minute := t.minute, second := t.second }

/-- Embedding of `WeeklyOnDay.infer_manual_data_interval`. -/
def inferManualDataInterval (t : WeeklyOnDay) (runAfter : PDateTime) : DataInterval :=
  let nextRun := t.getNextWeekday runAfter
  ⟨nextRun, addMinutes nextRun 60⟩

/-- Embedding of `WeeklyOnDay.next_dagrun_info`.  `none` would model Airflow's "no further
run"; the source returns `DagRunInfo.interval(...)` unconditionally (it never
consults `restriction.latest`), hence the result is always `some`. -/
def nextDagrunInfo (t : WeeklyOnDay) (now : PDateTime)
    (last : Option DataInterval) (r : TimeRestriction) : Option DataInterval :=
  let after := resolveAfter now r last
  let nextRun := t.getNextWeekday after
  some ⟨nextRun, addMinutes nextRun 60⟩

end WeeklyOnDay

/-- Parameters of the `MonthlyMultipleDays` timetable.  The constructor stores
`sorted(set(days))`; `ofDays` below is the embedding of that construction. -/
structure MonthlyMultipleDays where
  days : List Nat
  hour : Nat
  minute : Nat
  second : Nat
  tz : String
deriving Repr, DecidableEq

/-- Embedding of `sorted(set(days))`: the distinct values in ascending order. -/
def dedupSort (l : List Nat) : List Nat := l.dedup.insertionSort (· ≤ ·)

namespace MonthlyMultipleDays

/-- Embedding of `MonthlyMultipleDays.__init__`: stores `sorted(set(days))`. -/
def ofDays (days : List Nat) (hour minute second : Nat) (tz : String) :
    MonthlyMultipleDays :=
  ⟨dedupSort days, hour, minute, second, tz⟩

/-- Embedding of `(datetime(next month, 1) - duration(days=1)).day`, the way the source
computes the length of month `(year, month)`. -/
def lastDayNum (year : Int) (month : Nat) : Nat :=
  (predDay (if month = 12 then ⟨year + 1, 1, 1, 0, 0, 0⟩
            else ⟨year, month + 1, 1, 0, 0, 0⟩)).day

/-- The `while True` month loop at the end of
`MonthlyMultipleDays._get_next_run_date`: advance one month, return the first
configured day that is valid in it; `fuel` bounds the number of iterations. -/
def searchMonth (t : MonthlyMultipleDays) : Nat → Int → Nat → Option PDateTime
  | 0, _, _ => none
  | fuel + 1, year, month =>
    let year := if month = 12 then year + 1 else year
    let month := if month = 12 then 1 else month + 1
    let lastDay := lastDayNum year month
    match t.days.filter (fun d => 1 ≤ d && d ≤ lastDay) with
    | [] => t.searchMonth fuel year month
    | d :: _ => some ⟨year, month, d, t.hour, t.minute, t.second⟩

/-- Embedding of `MonthlyMultipleDays._get_next_run_date`: scan the configured days of the
current month for a candidate `>= after`, else fall into the month loop. -/
def getNextRunDate (t : MonthlyMultipleDays) (after : PDateTime) (fuel : Nat) :
    Option PDateTime :=
  let year := after.year
  let month := after.month
  let lastDay := lastDayNum year month
  let validDays := t.days.filter (fun d => 1 ≤ d && d ≤ lastDay)
  match validDays.find? (fun d =>
      key after ≤ key ⟨year, month, d, t.hour, t.minute, t.second⟩) with
  | some d => some ⟨year, month, d, t.hour, t.minute, t.second⟩
  | none => t.searchMonth fuel year month

/-- Embedding of `MonthlyMultipleDays.infer_manual_data_interval`. -/
def inferManualDataInterval (t : MonthlyMultipleDays) (runAfter : PDateTime)
    (fuel : Nat) : Option DataInterval :=
  (t.getNextRunDate runAfter fuel).map fun nextRun =>
    ⟨nextRun, addMinutes nextRun 60⟩

end MonthlyMultipleDays

/-- Parameters of the `EveryNDays` timetable. -/
structure EveryNDays where
  intervalDays : Nat
  hour : Nat
  minute : Nat
  second : Nat
  tz : String
deriving Repr, DecidableEq

namespace EveryNDays

/-- The `while base > run_after: base = base.subtract(days=interval_days)`
loop of `EveryNDays.infer_manual_data_interval`, with fuel. -/
def backStep (t : EveryNDays) : Nat → PDateTime → PDateTime → Option PDateTime
  | 0, _, _ => none
  | fuel + 1, runAfter, base =>
    if key runAfter < key base then
      t.backStep fuel runAfter (subDays base t.intervalDays)
    else some base

/-- Embedding of `EveryNDays.infer_manual_data_interval`: replace the time of day, walk
backwards while still after `run_after`, and span `interval_days`. -/
def inferManualDataInterval (t : EveryNDays) (runAfter : PDateTime)
    (fuel : Nat) : Option DataInterval :=
  let base := { runAfter with hour := t.hour, minute := t.minute, second := t.second }
  (t.backStep fuel runAfter base).map fun start =>
    ⟨start, addDays start t.intervalDays⟩

end EveryNDays

/-- Parameters of the `MonthlyWeekdayOccurrence` timetable (the Nth weekday
of every month; `n` is a Python int, negative counts from the month's end). -/
structure MonthlyWeekdayOccurrence where
  weekday : Nat
  n : Int
  hour : Nat
  minute : Nat
  second : Nat
  tz : String
deriving Repr, DecidableEq

namespace MonthlyWeekdayOccurrence

/-- Forward day-by-day scan of `_get_nth_weekday` for `n > 0`:
`if dt.day_of_week == weekday: count += 1; if count == n: break; dt += 1 day`. -/
def nthPos (t : MonthlyWeekdayOccurrence) : Nat → PDateTime → Int → Option PDateTime
  | 0, _, _ => none
  | fuel + 1, dt, count =>
    if dow dt = t.weekday then
      if count + 1 = t.n then some dt
      else t.nthPos fuel (succDay dt) (count + 1)
    else t.nthPos fuel (succDay dt) count

/-- Backward day-by-day scan of `_get_nth_weekday` for `n <= 0`:
`if dt.day_of_week == weekday: if n == count: break; count -= 1; dt -= 1 day`. -/
def nthNeg (t : MonthlyWeekdayOccurrence) : Nat → PDateTime → Int → Option PDateTime
  | 0, _, _ => none
  | fuel + 1, dt, count =>
    if dow dt = t.weekday then
      if t.n = count then some dt
      else t.nthNeg fuel (predDay dt) (count - 1)
    else t.nthNeg fuel (predDay dt) count

/-- Embedding of `MonthlyWeekdayOccurrence._get_nth_weekday`. -/
def getNthWeekday (t : MonthlyWeekdayOccurrence) (fuel : Nat)
    (year : Int) (month : Nat) : Option PDateTime :=
  if 0 < t.n then
    (t.nthPos fuel ⟨year, month, 1, 0, 0, 0⟩ 0).map fun dt =>
      { dt with hour := t.hour, minute := t.minute, second := t.second }
  else
    (t.nthNeg fuel
        (predDay (if month = 12 then ⟨year + 1, 1, 1, 0, 0, 0⟩
                  else ⟨year, month + 1, 1, 0, 0, 0⟩)) (-1)).map fun dt =>
      { dt with hour := t.hour, minute := t.minute, second := t.second }

end MonthlyWeekdayOccurrence

/-- Parameters of the `BusinessDayOfMonth` timetable (`n`-th business day of
each month, business day = Monday..Friday; negative `n` counts from the
month's end). -/
structure BusinessDayOfMonth where
  n : Int
  hour : Nat
  minute : Nat
  second : Nat
  tz : String
deriving Repr, DecidableEq

namespace BusinessDayOfMonth

/-- Forward scan of `_get_nth_business_day` for `n > 0`
(`dt.day_of_week < 5` is the business-day test). -/
def nthPos (t : BusinessDayOfMonth) : Nat → PDateTime → Int → Option PDateTime
  | 0, _, _ => none
  | fuel + 1, dt, count =>
    if dow dt < 5 then
      if count + 1 = t.n then some dt
      else t.nthPos fuel (succDay dt) (count + 1)
    else t.nthPos fuel (succDay dt) count

/-- Backward scan of `_get_nth_business_day` for `n <= 0`. -/
def nthNeg (t : BusinessDayOfMonth) : Nat → PDateTime → Int → Option PDateTime
  | 0, _, _ => none
  | fuel + 1, dt, count =>
    if dow dt < 5 then
      if t.n = count then some dt
      else t.nthNeg fuel (predDay dt) (count - 1)
    else t.nthNeg fuel (predDay dt) count

/-- Embedding of `BusinessDayOfMonth._get_nth_business_day`. -/
def getNthBusinessDay (t : BusinessDayOfMonth) (fuel : Nat)
    (year : Int) (month : Nat) : Option PDateTime :=
  if 0 < t.n then
    (t.nthPos fuel ⟨year, month, 1, 0, 0, 0⟩ 0).map fun dt =>
      { dt with hour := t.hour, minute := t.minute, second := t.second }
  else
    (t.nthNeg fuel
        (predDay (if month = 12 then ⟨year + 1, 1, 1, 0, 0, 0⟩
                  else ⟨year, month + 1, 1, 0, 0, 0⟩)) (-1)).map fun dt =>
      { dt with hour := t.hour, minute := t.minute, second := t.second }

end BusinessDayOfMonth

/-- Parameters of the `MonthlyLastDayExceptWeekend` timetable (last day of
each month, moved back to Friday when it falls on a weekend). -/
structure MonthlyLastDayExceptWeekend where
  hour : Nat
  minute : Nat
  second : Nat
  tz : String
deriving Repr, DecidableEq

namespace MonthlyLastDayExceptWeekend

/-- The `while last_day.day_of_week > 4: last_day -= 1 day` loop of
`MonthlyLastDayExceptWeekend._get_last_day`, with fuel. -/
def walkBack : Nat → PDateTime → Option PDateTime
  | 0, _ => none
  | fuel + 1, d => if 4 < dow d then walkBack fuel (predDay d) else some d

/-- Embedding of `MonthlyLastDayExceptWeekend._get_last_day`. -/
def getLastDay (t : MonthlyLastDayExceptWeekend) (fuel : Nat)
    (year : Int) (month : Nat) : Option PDateTime :=
  let nextMonth : PDateTime :=
    if month = 12 then ⟨year + 1, 1, 1, 0, 0, 0⟩ else ⟨year, month + 1, 1, 0, 0, 0⟩
  (walkBack fuel (predDay nextMonth)).map fun lastDay =>
    { lastDay with hour := t.hour, minute := t.minute, second := t.second }

end MonthlyLastDayExceptWeekend

/-- Parameters of the `EveryNInterval` timetable (fixed cadence of
`interval_hours` hours plus `interval_minutes` minutes, anchored to
midnight). -/
structure EveryNInterval where
  intervalMinutes : Nat
  intervalHours : Nat
  tz : String
deriving Repr, DecidableEq

namespace EveryNInterval

/-- Embedding of `interval_hours * 60 + interval_minutes`. -/
def totalMinutes (t : EveryNInterval) : Nat :=
  t.intervalHours * 60 + t.intervalMinutes

/-- Embedding of `EveryNInterval.infer_manual_data_interval`; `Except.error` models the
`ValueError` raised for a zero-length interval. -/
def inferManualDataInterval (t : EveryNInterval) (runAfter : PDateTime) :
    Except String DataInterval :=
  let tot := t.totalMinutes
  if tot = 0 then
    .error "At least one of interval_minutes or interval_hours must be > 0"
  else
    let anchor := { runAfter with hour := 0, minute := 0, second := 0 }
    -- int((run_after - anchor).total_minutes()) for the same-day midnight anchor
    let minutesSinceAnchor := runAfter.hour * 60 + runAfter.minute
    let alignedMinutes := minutesSinceAnchor / tot * tot
    let aligned := addMinutes anchor alignedMinutes
    .ok ⟨aligned, addMinutes aligned tot⟩

/-- The alignment lines of `EveryNInterval.next_dagrun_info`: anchor at the
baseline's midnight, floor the elapsed whole minutes onto the grid, and add
one more step when the floored point is before the baseline. -/
def alignedGrid (t : EveryNInterval) (b : PDateTime) : PDateTime :=
  let tot := t.totalMinutes
  let anchor : PDateTime := ⟨b.year, b.month, b.day, 0, 0, 0⟩
  let minutesSinceAnchor := b.hour * 60 + b.minute
  let aligned := addMinutes anchor (minutesSinceAnchor / tot * tot)
  if key aligned < key b then addMinutes aligned tot else aligned

/-- Embedding of `EveryNInterval.next_dagrun_info`.  `.ok none` is Airflow's "no further
run"; `.error` models the `ValueError` for a zero-length interval. -/
def nextDagrunInfo (t : EveryNInterval) (now : PDateTime)
    (last : Option DataInterval) (r : TimeRestriction) :
    Except String (Option DataInterval) :=
  let tot := t.totalMinutes
  if tot = 0 then
    .error "At least one of interval_minutes or interval_hours must be > 0"
  else
    let baseline := baselineResolved now r
    let aligned := t.alignedGrid baseline
    let nextStart :=
      match last with
      | some l => if key l.stop < key aligned then aligned else l.stop
      | none => aligned
    match r.latest with
    | some lt => if key lt < key nextStart then .ok none
                 else .ok (some ⟨nextStart, addMinutes nextStart tot⟩)
    | none => .ok (some ⟨nextStart, addMinutes nextStart tot⟩)

end EveryNInterval

/-- Parameters of the `MonthlyOnDay` timetable. -/
structure MonthlyOnDay where
  day : Nat
  hour : Nat
  minute : Nat
  second : Nat
  tz : String
deriving Repr, DecidableEq

/-- Parameters of the `QuarterlyFirstDay` timetable. -/
structure QuarterlyFirstDay where
  hour : Nat
  minute : Nat
  second : Nat
  tz : String
deriving Repr, DecidableEq

/-- Parameters of the `QuarterlyLastDay` timetable. -/
structure QuarterlyLastDay where
  hour : Nat
  minute : Nat
  second : Nat
  tz : String
deriving Repr, DecidableEq

/-- Parameters of the `YearlyFirstDay` timetable. -/
structure YearlyFirstDay where
  hour : Nat
  minute : Nat
  second : Nat
  tz : String
deriving Repr, DecidableEq

/-- Parameters of the `YearlyWeekdayOccurrence` timetable (Nth weekday of a
fixed month each year; `month`, `weekday` and `n` are required constructor
arguments with no defaults). -/
structure YearlyWeekdayOccurrence where
  month : Nat
  weekday : Nat
  n : Int
  hour : Nat
  minute : Nat
  second : Nat
  tz : String
deriving Repr, DecidableEq

/-- Parameters of the `BiweeklyOnDay` timetable. -/
structure BiweeklyOnDay where
  weekday : Nat
  hour : Nat
  minute : Nat
  second : Nat
  tz : String
  anchorDate : String
deriving Repr, DecidableEq

/-- Parameters of the `SemiMonthly` timetable. -/
structure SemiMonthly where
  hour : Nat
  minute : Nat
  second : Nat
  tz : String
deriving Repr, DecidableEq

/-- Parameters of the `CronTimetable` wrapper (cron expression plus
timezone; evaluation is delegated to the external cron evaluator). -/
structure CronTimetable where
  cron : String
  timezone : String
deriving Repr, DecidableEq

namespace MonthlyLastDay

/-- Flat key-value mapping produced by `MonthlyLastDay.serialize`; a missing
key is `none`. -/
structure Serialized where
  tz : Option String
  hour : Option Nat
  minute : Option Nat
  second : Option Nat
deriving Repr, DecidableEq

/-- Embedding of `MonthlyLastDay.serialize`. -/
def serialize (t : MonthlyLastDay) : Serialized :=
  ⟨some t.tz, some t.hour, some t.minute, some t.second⟩

/-- Embedding of `MonthlyLastDay.deserialize` (`data.get(key, default)`). -/
def deserialize (d : Serialized) : MonthlyLastDay :=
  ⟨d.hour.getD 0, d.minute.getD 0, d.second.getD 0,
   d.tz.getD "America/New_York"⟩

end MonthlyLastDay

namespace MonthlyOnDay

/-- Flat key-value mapping produced by `MonthlyOnDay.serialize`. -/
structure Serialized where
  day : Option Nat
  tz : Option String
  hour : Option Nat
  minute : Option Nat
  second : Option Nat
deriving Repr, DecidableEq

/-- Embedding of `MonthlyOnDay.serialize`. -/
def serialize (t : MonthlyOnDay) : Serialized :=
  ⟨some t.day, some t.tz, some t.hour, some t.minute, some t.second⟩

/-- Embedding of `MonthlyOnDay.deserialize`. -/
def deserialize (d : Serialized) : MonthlyOnDay :=
  ⟨d.day.getD 1, d.hour.getD 0, d.minute.getD 0, d.second.getD 0,
   d.tz.getD "America/New_York"⟩

end MonthlyOnDay

namespace MonthlyMultipleDays

/-- Flat key-value mapping produced by `MonthlyMultipleDays.serialize`. -/
structure Serialized where
  days : Option (List Nat)
  tz : Option String
  hour : Option Nat
  minute : Option Nat
  second : Option Nat
deriving Repr, DecidableEq

/-- Embedding of `MonthlyMultipleDays.serialize` (stores the processed
`self.days`). -/
def serialize (t : MonthlyMultipleDays) : Serialized :=
  ⟨some t.days, some t.tz, some t.hour, some t.minute, some t.second⟩

/-- Embedding of `MonthlyMultipleDays.deserialize`; the constructor applies
`sorted(set(days))` again. -/
def deserialize (d : Serialized) : MonthlyMultipleDays :=
  ofDays (d.days.getD [1]) (d.hour.getD 0) (d.minute.getD 0) (d.second.getD 0)
    (d.tz.getD "America/New_York")

end MonthlyMultipleDays

namespace QuarterlyFirstDay

/-- Flat key-value mapping produced by `QuarterlyFirstDay.serialize`. -/
structure Serialized where
  tz : Option String
  hour : Option Nat
  minute : Option Nat
  second : Option Nat
deriving Repr, DecidableEq

/-- Embedding of `QuarterlyFirstDay.serialize`. -/
def serialize (t : QuarterlyFirstDay) : Serialized :=
  ⟨some t.tz, some t.hour, some t.minute, some t.second⟩

/-- Embedding of `QuarterlyFirstDay.deserialize`. -/
def deserialize (d : Serialized) : QuarterlyFirstDay :=
  ⟨d.hour.getD 0, d.minute.getD 0, d.second.getD 0,
   d.tz.getD "America/New_York"⟩

end QuarterlyFirstDay

namespace QuarterlyLastDay

/-- Flat key-value mapping produced by `QuarterlyLastDay.serialize`. -/
structure Serialized where
  tz : Option String
  hour : Option Nat
  minute : Option Nat
  second : Option Nat
deriving Repr, DecidableEq

/-- Embedding of `QuarterlyLastDay.serialize`. -/
def serialize (t : QuarterlyLastDay) : Serialized :=
  ⟨some t.tz, some t.hour, some t.minute, some t.second⟩

/-- Embedding of `QuarterlyLastDay.deserialize`. -/
def deserialize (d : Serialized) : QuarterlyLastDay :=
  ⟨d.hour.getD 0, d.minute.getD 0, d.second.getD 0,
   d.tz.getD "America/New_York"⟩

end QuarterlyLastDay

namespace YearlyFirstDay

/-- Flat key-value mapping produced by `YearlyFirstDay.serialize`. -/
structure Serialized where
  tz : Option String
  hour : Option Nat
  minute : Option Nat
  second : Option Nat
deriving Repr, DecidableEq

/-- Embedding of `YearlyFirstDay.serialize`. -/
def serialize (t : YearlyFirstDay) : Serialized :=
  ⟨some t.tz, some t.hour, some t.minute, some t.second⟩

/-- Embedding of `YearlyFirstDay.deserialize`. -/
def deserialize (d : Serialized) : YearlyFirstDay :=
  ⟨d.hour.getD 0, d.minute.getD 0, d.second.getD 0,
   d.tz.getD "America/New_York"⟩

end YearlyFirstDay

namespace YearlyWeekdayOccurrence

/-- The class defines no `serialize`/`deserialize` of its own, so the
framework base-class defaults apply.  The base `Timetable.serialize` returns
an empty mapping, embedded as a structure with no fields. -/
structure Serialized where
deriving Repr, DecidableEq

/-- The inherited framework default `serialize`: an empty mapping, losing
every parameter. -/
def serialize (_t : YearlyWeekdayOccurrence) : Serialized := ⟨⟩

/-- The inherited framework default `deserialize` calls the constructor with
no arguments; `YearlyWeekdayOccurrence.__init__` requires `month`, `weekday`
and `n`, so reconstruction fails (`none`). -/
def deserialize (_d : Serialized) : Option YearlyWeekdayOccurrence := none

end YearlyWeekdayOccurrence

namespace WeeklyOnDay

/-- Flat key-value mapping produced by `WeeklyOnDay.serialize`. -/
structure Serialized where
  weekday : Option Nat
  tz : Option String
  hour : Option Nat
  minute : Option Nat
  second : Option Nat
deriving Repr, DecidableEq

/-- Embedding of `WeeklyOnDay.serialize`. -/
def serialize (t : WeeklyOnDay) : Serialized :=
  ⟨some t.weekday, some t.tz, some t.hour, some t.minute, some t.second⟩

/-- Embedding of `WeeklyOnDay.deserialize`. -/
def deserialize (d : Serialized) : WeeklyOnDay :=
  ⟨d.weekday.getD 0, d.hour.getD 0, d.minute.getD 0, d.second.getD 0,
   d.tz.getD "America/New_York"⟩

end WeeklyOnDay

namespace BiweeklyOnDay

/-- Flat key-value mapping produced by `BiweeklyOnDay.serialize`. -/
structure Serialized where
  weekday : Option Nat
  tz : Option String
  hour : Option Nat
  minute : Option Nat
  second : Option Nat
  anchorDate : Option String
deriving Repr, DecidableEq

/-- Embedding of `BiweeklyOnDay.serialize`. -/
def serialize (t : BiweeklyOnDay) : Serialized :=
  ⟨some t.weekday, some t.tz, some t.hour, some t.minute, some t.second,
   some t.anchorDate⟩

/-- Embedding of `BiweeklyOnDay.deserialize`. -/
def deserialize (d : Serialized) : BiweeklyOnDay :=
  ⟨d.weekday.getD 0, d.hour.getD 0, d.minute.getD 0, d.second.getD 0,
   d.tz.getD "America/New_York", d.anchorDate.getD "2024-01-01"⟩

end BiweeklyOnDay

namespace SemiMonthly

/-- Flat key-value mapping produced by `SemiMonthly.serialize`. -/
structure Serialized where
  tz : Option String
  hour : Option Nat
  minute : Option Nat
  second : Option Nat
deriving Repr, DecidableEq

/-- Embedding of `SemiMonthly.serialize`. -/
def serialize (t : SemiMonthly) : Serialized :=
  ⟨some t.tz, some t.hour, some t.minute, some t.second⟩

/-- Embedding of `SemiMonthly.deserialize`. -/
def deserialize (d : Serialized) : SemiMonthly :=
  ⟨d.hour.getD 0, d.minute.getD 0, d.second.getD 0,
   d.tz.getD "America/New_York"⟩

end SemiMonthly

namespace MonthlyWeekdayOccurrence

/-- Flat key-value mapping produced by `MonthlyWeekdayOccurrence.serialize`. -/
structure Serialized where
  weekday : Option Nat
  n : Option Int
  tz : Option String
  hour : Option Nat
  minute : Option Nat
  second : Option Nat
deriving Repr, DecidableEq

/-- Embedding of `MonthlyWeekdayOccurrence.serialize`. -/
def serialize (t : MonthlyWeekdayOccurrence) : Serialized :=
  ⟨some t.weekday, some t.n, some t.tz, some t.hour, some t.minute,
   some t.second⟩

/-- Embedding of `MonthlyWeekdayOccurrence.deserialize`. -/
def deserialize (d : Serialized) : MonthlyWeekdayOccurrence :=
  ⟨d.weekday.getD 0, d.n.getD 1, d.hour.getD 0, d.minute.getD 0,
   d.second.getD 0, d.tz.getD "America/New_York"⟩

end MonthlyWeekdayOccurrence

namespace EveryNDays

/-- Flat key-value mapping produced by `EveryNDays.serialize`. -/
structure Serialized where
  intervalDays : Option Nat
  tz : Option String
  hour : Option Nat
  minute : Option Nat
  second : Option Nat
deriving Repr, DecidableEq

/-- Embedding of `EveryNDays.serialize`. -/
def serialize (t : EveryNDays) : Serialized :=
  ⟨some t.intervalDays, some t.tz, some t.hour, some t.minute, some t.second⟩

/-- Embedding of `EveryNDays.deserialize`. -/
def deserialize (d : Serialized) : EveryNDays :=
  ⟨d.intervalDays.getD 1, d.hour.getD 0, d.minute.getD 0, d.second.getD 0,
   d.tz.getD "America/New_York"⟩

end EveryNDays

namespace BusinessDayOfMonth

/-- Flat key-value mapping produced by `BusinessDayOfMonth.serialize`. -/
structure Serialized where
  n : Option Int
  tz : Option String
  hour : Option Nat
  minute : Option Nat
  second : Option Nat
deriving Repr, DecidableEq

/-- Embedding of `BusinessDayOfMonth.serialize`. -/
def serialize (t : BusinessDayOfMonth) : Serialized :=
  ⟨some t.n, some t.tz, some t.hour, some t.minute, some t.second⟩

/-- Embedding of `BusinessDayOfMonth.deserialize`. -/
def deserialize (d : Serialized) : BusinessDayOfMonth :=
  ⟨d.n.getD 1, d.hour.getD 0, d.minute.getD 0, d.second.getD 0,
   d.tz.getD "America/New_York"⟩

end BusinessDayOfMonth

namespace MonthlyLastDayExceptWeekend

/-- Flat key-value mapping produced by
`MonthlyLastDayExceptWeekend.serialize`. -/
structure Serialized where
  tz : Option String
  hour : Option Nat
  minute : Option Nat
  second : Option Nat
deriving Repr, DecidableEq

/-- Embedding of `MonthlyLastDayExceptWeekend.serialize`. -/
def serialize (t : MonthlyLastDayExceptWeekend) : Serialized :=
  ⟨some t.tz, some t.hour, some t.minute, some t.second⟩

/-- Embedding of `MonthlyLastDayExceptWeekend.deserialize`. -/
def deserialize (d : Serialized) : MonthlyLastDayExceptWeekend :=
  ⟨d.hour.getD 0, d.minute.getD 0, d.second.getD 0,
   d.tz.getD "America/New_York"⟩

end MonthlyLastDayExceptWeekend

namespace CronTimetable

/-- Flat key-value mapping produced by `CronTimetable.serialize`. -/
structure Serialized where
  cron : Option String
  timezone : Option String
deriving Repr, DecidableEq

/-- Embedding of `CronTimetable.serialize`. -/
def serialize (t : CronTimetable) : Serialized :=
  ⟨some t.cron, some t.timezone⟩

/-- Embedding of `CronTimetable.deserialize` (`data.get("cron")` has no
default, so a missing cron key yields no instance). -/
def deserialize (d : Serialized) : Option CronTimetable :=
  d.cron.map fun c => ⟨c, d.timezone.getD "America/New_York"⟩

end CronTimetable

namespace EveryNInterval

/-- Flat key-value mapping produced by `EveryNInterval.serialize`. -/
structure Serialized where
  intervalMinutes : Option Nat
  intervalHours : Option Nat
  tz : Option String
deriving Repr, DecidableEq

/-- Embedding of `EveryNInterval.serialize`. -/
def serialize (t : EveryNInterval) : Serialized :=
  ⟨some t.intervalMinutes, some t.intervalHours, some t.tz⟩

/-- Embedding of `EveryNInterval.deserialize`. -/
def deserialize (d : Serialized) : EveryNInterval :=
  ⟨d.intervalMinutes.getD 0, d.intervalHours.getD 0,
   d.tz.getD "America/New_York"⟩

end EveryNInterval

/-! Helper lemmas about the civil-time embedding. -/

theorem daysInMonth_le (y : Int) (m : Nat) : daysInMonth y m ≤ 31 := by
  unfold daysInMonth; split_ifs <;> omega

theorem daysInMonth_ge (y : Int) (m : Nat) : 28 ≤ daysInMonth y m := by
  unfold daysInMonth; split_ifs <;> omega

theorem timeKey_lt (d : PDateTime) (hh : d.hour < 24) (hm : d.minute < 60)
    (hs : d.second < 60) : timeKey d < 86400 := by
  unfold timeKey; omega

theorem timeKey_lt_of_valid (d : PDateTime) (h : d.Valid) : timeKey d < 86400 :=
  timeKey_lt d h.2.2.2.2.1 h.2.2.2.2.2.1 h.2.2.2.2.2.2

theorem dateKey_predDay (d : PDateTime) : dateKey (predDay d) + 1 ≤ dateKey d := by
  have h1 := daysInMonth_le d.year (d.month - 1)
  unfold predDay
  split_ifs with h2 h3 <;> simp [dateKey] <;> omega

theorem timeKey_predDay (d : PDateTime) : timeKey (predDay d) = timeKey d := by
  unfold predDay; split_ifs <;> rfl

theorem key_predDay (d : PDateTime) : key (predDay d) + 86400 ≤ key d := by
  have h1 := dateKey_predDay d
  have h2 := timeKey_predDay d
  unfold key; omega

theorem key_subDays_le (d : PDateTime) (k : Nat) : key (subDays d k) ≤ key d := by
  induction k generalizing d with
  | zero => simp [subDays]
  | succ n ih =>
    have h1 := key_predDay d
    have h2 := ih (predDay d)
    calc key (subDays d (n + 1)) = key (subDays (predDay d) n) := rfl
    _ ≤ key (predDay d) := h2
    _ ≤ key d := by omega

theorem key_subDays (d : PDateTime) (k : Nat) (hk : 1 ≤ k) :
    key (subDays d k) + 86400 ≤ key d := by
  obtain ⟨n, rfl⟩ : ∃ n, k = n + 1 := ⟨k - 1, by omega⟩
  have h1 := key_subDays_le (predDay d) n
  have h2 := key_predDay d
  calc key (subDays d (n + 1)) + 86400 = key (subDays (predDay d) n) + 86400 := rfl
  _ ≤ key (predDay d) + 86400 := by omega
  _ ≤ key d := h2

theorem dateKey_succDay (d : PDateTime) (hd : d.day ≤ 31) (hm : d.month ≤ 12) :
    dateKey d + 1 ≤ dateKey (succDay d) := by
  unfold succDay
  split_ifs with h2 h3 <;> simp [dateKey] <;> omega

theorem timeKey_succDay (d : PDateTime) : timeKey (succDay d) = timeKey d := by
  unfold succDay; split_ifs <;> rfl

theorem valid_succDay (d : PDateTime) (h : d.Valid) : (succDay d).Valid := by
  obtain ⟨h1, h2, h3, h4, h5, h6, h7⟩ := h
  unfold succDay PDateTime.Valid
  split_ifs with g1 g2 <;> simp_all
  · omega
  · have := daysInMonth_ge d.year (d.month + 1); omega
  · have := daysInMonth_ge (d.year + 1) 1; omega

theorem valid_addDays (d : PDateTime) (n : Nat) (h : d.Valid) :
    (addDays d n).Valid := by
  induction n generalizing d with
  | zero => exact h
  | succ k ih => exact ih (succDay d) (valid_succDay d h)

theorem dateKey_addDays (d : PDateTime) (n : Nat) (h : d.Valid) :
    dateKey d + n ≤ dateKey (addDays d n) := by
  induction n generalizing d with
  | zero => simp [addDays]
  | succ k ih =>
    obtain ⟨hm1, hm2, hd1, hd2, hrest⟩ := h
    have hd31 : d.day ≤ 31 := by have := daysInMonth_le d.year d.month; omega
    have h1 := dateKey_succDay d hd31 hm2
    have h2 := ih (succDay d) (valid_succDay d ⟨hm1, hm2, hd1, hd2, hrest⟩)
    calc dateKey d + (k + 1) ≤ dateKey (succDay d) + k := by omega
    _ ≤ dateKey (addDays (succDay d) k) := h2
    _ = dateKey (addDays d (k + 1)) := rfl

theorem hour_addDays (d : PDateTime) (n : Nat) : (addDays d n).hour = d.hour := by
  induction n generalizing d with
  | zero => rfl
  | succ k ih =>
    have : (succDay d).hour = d.hour := by unfold succDay; split_ifs <;> rfl
    calc (addDays d (k + 1)).hour = (addDays (succDay d) k).hour := rfl
    _ = (succDay d).hour := ih _
    _ = d.hour := this

theorem minute_addDays (d : PDateTime) (n : Nat) : (addDays d n).minute = d.minute := by
  induction n generalizing d with
  | zero => rfl
  | succ k ih =>
    have : (succDay d).minute = d.minute := by unfold succDay; split_ifs <;> rfl
    calc (addDays d (k + 1)).minute = (addDays (succDay d) k).minute := rfl
    _ = (succDay d).minute := ih _
    _ = d.minute := this

theorem second_addDays (d : PDateTime) (n : Nat) : (addDays d n).second = d.second := by
  induction n generalizing d with
  | zero => rfl
  | succ k ih =>
    have : (succDay d).second = d.second := by unfold succDay; split_ifs <;> rfl
    calc (addDays d (k + 1)).second = (addDays (succDay d) k).second := rfl
    _ = (succDay d).second := ih _
    _ = d.second := this

theorem addDays_addDays (d : PDateTime) (i j : Nat) :
    addDays (addDays d i) j = addDays d (i + j) := by
  induction i generalizing d with
  | zero => rw [Nat.zero_add]; rfl
  | succ k ih =>
    calc addDays (addDays d (k + 1)) j = addDays (addDays (succDay d) k) j := rfl
    _ = addDays (succDay d) (k + j) := ih _
    _ = addDays d (k + 1 + j) := by rw [show k + 1 + j = (k + j) + 1 from by omega]; rfl

theorem replaceTime_addDays (e : PDateTime) (n : Nat) (a b c : Nat) :
    (⟨(addDays e n).year, (addDays e n).month, (addDays e n).day, a, b, c⟩ :
        PDateTime) =
      addDays ⟨e.year, e.month, e.day, a, b, c⟩ n := by
  induction n generalizing e with
  | zero => rfl
  | succ k ih =>
    have hstep : (⟨(succDay e).year, (succDay e).month, (succDay e).day, a, b, c⟩ :
        PDateTime) = succDay ⟨e.year, e.month, e.day, a, b, c⟩ := by
      unfold succDay; dsimp only; split_ifs <;> rfl
    calc (⟨(addDays e (k + 1)).year, (addDays e (k + 1)).month,
            (addDays e (k + 1)).day, a, b, c⟩ : PDateTime)
        = ⟨(addDays (succDay e) k).year, (addDays (succDay e) k).month,
            (addDays (succDay e) k).day, a, b, c⟩ := rfl
    _ = addDays ⟨(succDay e).year, (succDay e).month, (succDay e).day, a, b, c⟩ k :=
        ih _
    _ = addDays (succDay ⟨e.year, e.month, e.day, a, b, c⟩) k := by rw [hstep]
    _ = addDays ⟨e.year, e.month, e.day, a, b, c⟩ (k + 1) := rfl

theorem addMinutes_addMinutes (d : PDateTime) (a b : Nat) :
    addMinutes (addMinutes d a) b = addMinutes d (a + b) := by
  unfold addMinutes
  dsimp only
  rw [hour_addDays, minute_addDays, second_addDays]
  dsimp only
  rw [replaceTime_addDays, addDays_addDays]
  have e2 : ((d.hour * 60 + d.minute + a) % 1440 / 60 * 60 +
      (d.hour * 60 + d.minute + a) % 60 + b) % 1440 =
      (d.hour * 60 + d.minute + (a + b)) % 1440 := by omega
  have e3 : ((d.hour * 60 + d.minute + a) % 1440 / 60 * 60 +
      (d.hour * 60 + d.minute + a) % 60 + b) % 60 =
      (d.hour * 60 + d.minute + (a + b)) % 60 := by omega
  have e4 : (d.hour * 60 + d.minute + a) / 1440 +
      ((d.hour * 60 + d.minute + a) % 1440 / 60 * 60 +
        (d.hour * 60 + d.minute + a) % 60 + b) / 1440 =
      (d.hour * 60 + d.minute + (a + b)) / 1440 := by omega
  rw [e2, e3, e4]

theorem MonthlyLastDay.getLastDay_eq (t : MonthlyLastDay) (y : Int) (m : Nat)
    (h1 : 1 ≤ m) (h2 : m ≤ 12) :
    t.getLastDay y m = ⟨y, m, daysInMonth y m, t.hour, t.minute, t.second⟩ := by
  by_cases hm : m = 12
  · subst hm
    simp only [getLastDay, if_pos rfl]
    simp [predDay, daysInMonth]
  · have hlt : 1 < m + 1 := by omega
    simp only [getLastDay, if_neg hm]
    simp [predDay, hlt]

theorem MonthlyLastDay.inferManual_start (t : MonthlyLastDay) (runAfter : PDateTime) :
    (t.inferManualDataInterval runAfter).start =
      if key runAfter < key (t.getLastDay runAfter.year runAfter.month) then
        if runAfter.month = 1 then t.getLastDay (runAfter.year - 1) 12
        else t.getLastDay runAfter.year (runAfter.month - 1)
      else t.getLastDay runAfter.year runAfter.month := rfl

theorem MonthlyLastDay.occKey_lt (t : MonthlyLastDay) {y y' : Int} {m m' : Nat}
    (hm1 : 1 ≤ m) (hm2 : m ≤ 12) (hm1' : 1 ≤ m') (hm2' : m' ≤ 12)
    (hlex : y < y' ∨ (y = y' ∧ m < m')) :
    key (t.getLastDay y m) < key (t.getLastDay y' m') := by
  rw [t.getLastDay_eq y m hm1 hm2, t.getLastDay_eq y' m' hm1' hm2']
  have b1 := daysInMonth_le y m
  have b2 := daysInMonth_ge y' m'
  unfold key dateKey timeKey
  dsimp only
  rcases hlex with h | ⟨rfl, h⟩ <;> omega

theorem MonthlyLastDay.occKey_gt_runAfter (t : MonthlyLastDay)
    (runAfter : PDateTime) (hv : runAfter.Valid)
    (_hh : t.hour < 24) (_hmi : t.minute < 60) (hs : t.second < 60)
    {y : Int} {m : Nat} (hm1 : 1 ≤ m) (hm2 : m ≤ 12)
    (hlex : runAfter.year < y ∨ (runAfter.year = y ∧ runAfter.month < m)) :
    key runAfter < key (t.getLastDay y m) := by
  obtain ⟨a1, a2, a3, a4, a5, a6, a7⟩ := hv
  rw [t.getLastDay_eq y m hm1 hm2]
  have b2 := daysInMonth_ge y m
  have b5 := daysInMonth_le runAfter.year runAfter.month
  unfold key dateKey timeKey
  dsimp only
  rcases hlex with h | ⟨he, h⟩ <;> omega

theorem MonthlyLastDay.occ_month_le (t : MonthlyLastDay) (runAfter : PDateTime)
    (hv : runAfter.Valid) (hh : t.hour < 24) (hmi : t.minute < 60)
    (hs : t.second < 60) {y : Int} {m : Nat} (hm1 : 1 ≤ m) (hm2 : m ≤ 12)
    (hle : key (t.getLastDay y m) ≤ key runAfter) :
    y < runAfter.year ∨ (y = runAfter.year ∧ m ≤ runAfter.month) := by
  rcases lt_trichotomy y runAfter.year with hy | hy | hy
  · exact Or.inl hy
  · rcases Nat.lt_or_ge runAfter.month m with hm | hm
    · have hk : key runAfter < key (t.getLastDay y m) :=
        t.occKey_gt_runAfter runAfter hv hh hmi hs hm1 hm2 (Or.inr ⟨hy.symm, hm⟩)
      omega
    · exact Or.inr ⟨hy, hm⟩
  · have hk : key runAfter < key (t.getLastDay y m) :=
      t.occKey_gt_runAfter runAfter hv hh hmi hs hm1 hm2 (Or.inl hy)
    omega

/-- C1 (amended): for `MonthlyLastDay`, the start of the manual data interval
is an occurrence (a last-day-of-month instant at the configured time of
day), it is at or before the reference instant, and it is the latest such
occurrence. -/
theorem monthlyLastDay_manual_latest_at_or_before
    (t : MonthlyLastDay) (runAfter : PDateTime) (hv : runAfter.Valid)
    (hh : t.hour < 24) (hmi : t.minute < 60) (hs : t.second < 60) :
    (∃ y m, 1 ≤ m ∧ m ≤ 12 ∧
      (t.inferManualDataInterval runAfter).start = t.getLastDay y m) ∧
    key (t.inferManualDataInterval runAfter).start ≤ key runAfter ∧
    (∀ y m, 1 ≤ m → m ≤ 12 → key (t.getLastDay y m) ≤ key runAfter →
      key (t.getLastDay y m) ≤ key (t.inferManualDataInterval runAfter).start) := by
  obtain ⟨a1, a2, a3, a4, a5, a6, a7⟩ := hv
  have hvv : runAfter.Valid := ⟨a1, a2, a3, a4, a5, a6, a7⟩
  rw [MonthlyLastDay.inferManual_start]
  by_cases hlt : key runAfter < key (t.getLastDay runAfter.year runAfter.month)
  · rw [if_pos hlt]
    by_cases hm0 : runAfter.month = 1
    · rw [if_pos hm0]
      refine ⟨⟨runAfter.year - 1, 12, by omega, le_refl 12, rfl⟩, ?_, ?_⟩
      · rw [t.getLastDay_eq _ 12 (by omega) (le_refl 12)]
        have b1 := daysInMonth_le (runAfter.year - 1) 12
        unfold key dateKey timeKey
        dsimp only
        omega
      · intro y m hm1 hm2 hle
        rcases t.occ_month_le runAfter hvv hh hmi hs hm1 hm2 hle with hy | ⟨hy, hm⟩
        · rcases lt_trichotomy y (runAfter.year - 1) with hy2 | hy2 | hy2
          · have hk : key (t.getLastDay y m) <
                key (t.getLastDay (runAfter.year - 1) 12) :=
              t.occKey_lt hm1 hm2 (by omega) (by omega) (Or.inl hy2)
            omega
          · rcases Nat.lt_or_ge m 12 with hm' | hm'
            · have hk : key (t.getLastDay y m) <
                  key (t.getLastDay (runAfter.year - 1) 12) :=
                t.occKey_lt hm1 hm2 (by omega) (by omega) (Or.inr ⟨hy2, hm'⟩)
              omega
            · have hm12 : m = 12 := by omega
              rw [hy2, hm12]
          · omega
        · have hmm : m = runAfter.month := by omega
          rw [hy, hmm] at hle
          omega
    · rw [if_neg hm0]
      refine ⟨⟨runAfter.year, runAfter.month - 1, by omega, by omega, rfl⟩, ?_, ?_⟩
      · rw [t.getLastDay_eq _ _ (by omega) (by omega)]
        have b1 := daysInMonth_le runAfter.year (runAfter.month - 1)
        unfold key dateKey timeKey
        dsimp only
        omega
      · intro y m hm1 hm2 hle
        rcases t.occ_month_le runAfter hvv hh hmi hs hm1 hm2 hle with hy | ⟨hy, hm⟩
        · have hk : key (t.getLastDay y m) <
              key (t.getLastDay runAfter.year (runAfter.month - 1)) :=
            t.occKey_lt hm1 hm2 (by omega) (by omega) (Or.inl hy)
          omega
        · rcases Nat.lt_or_ge m (runAfter.month - 1) with hm' | hm'
          · have hk : key (t.getLastDay y m) <
                key (t.getLastDay runAfter.year (runAfter.month - 1)) :=
              t.occKey_lt hm1 hm2 (by omega) (by omega) (Or.inr ⟨hy, hm'⟩)
            omega
          · rcases Nat.lt_or_ge m runAfter.month with hm'' | hm''
            · have hmm : m = runAfter.month - 1 := by omega
              rw [hy, hmm]
            · have hmm : m = runAfter.month := by omega
              rw [hy, hmm] at hle
              omega
  · rw [if_neg hlt]
    push_neg at hlt
    refine ⟨⟨runAfter.year, runAfter.month, a1, a2, rfl⟩, hlt, ?_⟩
    intro y m hm1 hm2 hle
    rcases t.occ_month_le runAfter hvv hh hmi hs hm1 hm2 hle with hy | ⟨hy, hm⟩
    · have hk : key (t.getLastDay y m) <
          key (t.getLastDay runAfter.year runAfter.month) :=
        t.occKey_lt hm1 hm2 a1 a2 (Or.inl hy)
      omega
    · rcases Nat.lt_or_ge m runAfter.month with hm' | hm'
      · have hk : key (t.getLastDay y m) <
            key (t.getLastDay runAfter.year runAfter.month) :=
          t.occKey_lt hm1 hm2 a1 a2 (Or.inr ⟨hy, hm'⟩)
        omega
      · have hmm : m = runAfter.month := by omega
        rw [hy, hmm]

/-- C1 witness: the amended theorem applied to the spec's own scenario
(hour 18:30, reference 2024-02-10T00:00). -/
theorem monthlyLastDay_manual_latest_at_or_before_witness :
    (⟨2024, 2, 10, 0, 0, 0⟩ : PDateTime).Valid ∧
    ((∃ y m, 1 ≤ m ∧ m ≤ 12 ∧
      (MonthlyLastDay.inferManualDataInterval ⟨18, 30, 0, "UTC"⟩
        ⟨2024, 2, 10, 0, 0, 0⟩).start =
        MonthlyLastDay.getLastDay ⟨18, 30, 0, "UTC"⟩ y m) ∧
    key (MonthlyLastDay.inferManualDataInterval ⟨18, 30, 0, "UTC"⟩
        ⟨2024, 2, 10, 0, 0, 0⟩).start ≤ key ⟨2024, 2, 10, 0, 0, 0⟩ ∧
    (∀ y m, 1 ≤ m → m ≤ 12 →
      key (MonthlyLastDay.getLastDay ⟨18, 30, 0, "UTC"⟩ y m) ≤
        key ⟨2024, 2, 10, 0, 0, 0⟩ →
      key (MonthlyLastDay.getLastDay ⟨18, 30, 0, "UTC"⟩ y m) ≤
        key (MonthlyLastDay.inferManualDataInterval ⟨18, 30, 0, "UTC"⟩
          ⟨2024, 2, 10, 0, 0, 0⟩).start)) :=
  ⟨by decide, monthlyLastDay_manual_latest_at_or_before ⟨18, 30, 0, "UTC"⟩
    ⟨2024, 2, 10, 0, 0, 0⟩ (by decide) (by decide) (by decide) (by decide)⟩

/-- C1 counterexample: `WeeklyOnDay.infer_manual_data_interval` returns the
interval of the next occurrence, strictly after the reference instant
2024-01-03T00:00 (a Wednesday, rule: Mondays at 08:00), so the manual
interval's start is not an occurrence at or before the reference. -/
theorem weeklyOnDay_manual_start_after_reference :
    (WeeklyOnDay.inferManualDataInterval ⟨0, 8, 0, 0, "America/New_York"⟩
      ⟨2024, 1, 3, 0, 0, 0⟩).start = ⟨2024, 1, 8, 8, 0, 0⟩ ∧
    key ⟨2024, 1, 3, 0, 0, 0⟩ <
      key (WeeklyOnDay.inferManualDataInterval ⟨0, 8, 0, 0, "America/New_York"⟩
        ⟨2024, 1, 3, 0, 0, 0⟩).start := by decide

/-- C2 (code bug): `WeeklyOnDay.next_dagrun_info` never consults
`restriction.latest`.  With `latest` = 2024-01-01T00:00 and evaluation time
2024-01-03 (so the baseline is past `latest`), the spec's scenario demands
"no further run", but the code still returns the 2024-01-08 interval, whose
start exceeds `latest`. -/
theorem weeklyOnDay_ignores_latest :
    WeeklyOnDay.nextDagrunInfo ⟨0, 0, 0, 0, "America/New_York"⟩
      ⟨2024, 1, 3, 0, 0, 0⟩ none
      ⟨none, some ⟨2024, 1, 1, 0, 0, 0⟩, true⟩ =
      some ⟨⟨2024, 1, 8, 0, 0, 0⟩, ⟨2024, 1, 8, 1, 0, 0⟩⟩ ∧
    key (⟨2024, 1, 1, 0, 0, 0⟩ : PDateTime) < key ⟨2024, 1, 8, 0, 0, 0⟩ := by decide

/-- C3 (code bug): the no-skip guarantee fails.  For Mondays at 10:45,
searching from Monday 2024-01-01T11:30 returns 2024-01-01T10:45, an
occurrence in the past, because `_get_next_weekday` compares the hour and
the minute independently (`after.minute >= minute` is false at 11:30). -/
theorem weeklyOnDay_next_weekday_in_past :
    WeeklyOnDay.getNextWeekday ⟨0, 10, 45, 0, "America/New_York"⟩
      ⟨2024, 1, 1, 11, 30, 0⟩ = ⟨2024, 1, 1, 10, 45, 0⟩ ∧
    key (⟨2024, 1, 1, 10, 45, 0⟩ : PDateTime) < key ⟨2024, 1, 1, 11, 30, 0⟩ := by
  decide

/-- C6 (code bug): monotonicity fails for `WeeklyOnDay._get_next_weekday`.
For Mondays at 10:45, searching from t1 = Monday 2024-01-01T10:45 yields
2024-01-08T10:45, but searching from the later t2 = Monday 2024-01-01T11:30
yields the earlier 2024-01-01T10:45. -/
theorem weeklyOnDay_not_monotone :
    key (⟨2024, 1, 1, 10, 45, 0⟩ : PDateTime) ≤ key ⟨2024, 1, 1, 11, 30, 0⟩ ∧
    WeeklyOnDay.getNextWeekday ⟨0, 10, 45, 0, "America/New_York"⟩
      ⟨2024, 1, 1, 10, 45, 0⟩ = ⟨2024, 1, 8, 10, 45, 0⟩ ∧
    WeeklyOnDay.getNextWeekday ⟨0, 10, 45, 0, "America/New_York"⟩
      ⟨2024, 1, 1, 11, 30, 0⟩ = ⟨2024, 1, 1, 10, 45, 0⟩ ∧
    key (WeeklyOnDay.getNextWeekday ⟨0, 10, 45, 0, "America/New_York"⟩
        ⟨2024, 1, 1, 11, 30, 0⟩) <
      key (WeeklyOnDay.getNextWeekday ⟨0, 10, 45, 0, "America/New_York"⟩
        ⟨2024, 1, 1, 10, 45, 0⟩) := by decide

/-- C7 (code bug): catch-up suppression fails for `WeeklyOnDay`.  With
`catchup = false`, a last interval ending far in the past (2023-12-04) and
evaluation time 2024-01-01T11:30, the returned start 2024-01-01T10:45 lies
before the current time. -/
theorem weeklyOnDay_catchup_returns_past_start :
    WeeklyOnDay.nextDagrunInfo ⟨0, 10, 45, 0, "America/New_York"⟩
      ⟨2024, 1, 1, 11, 30, 0⟩
      (some ⟨⟨2023, 12, 4, 10, 45, 0⟩, ⟨2023, 12, 4, 11, 45, 0⟩⟩)
      ⟨none, none, false⟩ =
      some ⟨⟨2024, 1, 1, 10, 45, 0⟩, ⟨2024, 1, 1, 11, 45, 0⟩⟩ ∧
    key (⟨2024, 1, 1, 10, 45, 0⟩ : PDateTime) < key ⟨2024, 1, 1, 11, 30, 0⟩ := by
  decide

/-- C4 counterexample: `MonthlyMultipleDays(days=[32])` is constructible, and
its month-advance loop finds no occurrence within 100 iterations (far beyond
the claimed handful of calendar periods): the loop never terminates, because
no month has 32 days. -/
theorem monthlyMultipleDays_search_unbounded :
    MonthlyMultipleDays.getNextRunDate
      (MonthlyMultipleDays.ofDays [32] 0 0 0 "America/New_York")
      ⟨2024, 1, 15, 0, 0, 0⟩ 100 = none := by decide

/-- C5 counterexample: an ordinal index of `n = 0` is not signaled: the
backward scan of `MonthlyWeekdayOccurrence._get_nth_weekday` raises nothing
and is still running after 100 day-steps (it never terminates). -/
theorem ordinal_zero_not_signaled :
    MonthlyWeekdayOccurrence.getNthWeekday ⟨0, 0, 9, 0, 0, "America/New_York"⟩
      100 2024 3 = none := by decide

theorem MonthlyWeekdayOccurrence.nthNeg_none (t : MonthlyWeekdayOccurrence)
    (hn : t.n = 0) : ∀ (fuel : Nat) (dt : PDateTime) (count : Int),
    count ≤ -1 → t.nthNeg fuel dt count = none := by
  intro fuel
  induction fuel with
  | zero => intro dt count hc; rfl
  | succ k ih =>
    intro dt count hc
    unfold nthNeg
    split_ifs with h1 h2
    · exfalso; omega
    · exact ih (predDay dt) (count - 1) (by omega)
    · exact ih (predDay dt) count hc

/-- C5 (amended): a zero-length `EveryNInterval` is signaled synchronously
(both evaluation operations raise the `ValueError`), but an invalid ordinal
index `n = 0` is not signaled: `MonthlyWeekdayOccurrence`'s backward ordinal
scan returns neither a result nor an error for any number of iterations. -/
theorem config_error_signaling :
    (∀ (t : EveryNInterval) (runAfter now : PDateTime)
      (last : Option DataInterval) (r : TimeRestriction),
      t.totalMinutes = 0 →
        t.inferManualDataInterval runAfter =
          .error "At least one of interval_minutes or interval_hours must be > 0" ∧
        t.nextDagrunInfo now last r =
          .error "At least one of interval_minutes or interval_hours must be > 0") ∧
    (∀ (t : MonthlyWeekdayOccurrence), t.n = 0 →
      ∀ (fuel : Nat) (y : Int) (m : Nat), t.getNthWeekday fuel y m = none) := by
  constructor
  · intro t runAfter now last r h
    constructor
    · unfold EveryNInterval.inferManualDataInterval
      rw [if_pos h]
    · unfold EveryNInterval.nextDagrunInfo
      rw [if_pos h]
  · intro t hn fuel y m
    unfold MonthlyWeekdayOccurrence.getNthWeekday
    rw [if_neg (by omega : ¬(0:Int) < t.n)]
    rw [t.nthNeg_none hn fuel _ (-1) (by omega)]
    rfl

/-- C5 witness: the amended theorem at a zero-length `EveryNInterval` and at
an `n = 0` `MonthlyWeekdayOccurrence`. -/
theorem config_error_signaling_witness :
    (EveryNInterval.inferManualDataInterval ⟨0, 0, "America/New_York"⟩
        ⟨2024, 1, 1, 0, 0, 0⟩ =
      .error "At least one of interval_minutes or interval_hours must be > 0" ∧
     EveryNInterval.nextDagrunInfo ⟨0, 0, "America/New_York"⟩
        ⟨2024, 1, 1, 0, 0, 0⟩ none ⟨none, none, true⟩ =
      .error "At least one of interval_minutes or interval_hours must be > 0") ∧
    MonthlyWeekdayOccurrence.getNthWeekday ⟨0, 0, 9, 0, 0, "America/New_York"⟩
      7 2024 3 = none :=
  ⟨config_error_signaling.1 ⟨0, 0, "America/New_York"⟩ ⟨2024, 1, 1, 0, 0, 0⟩
      ⟨2024, 1, 1, 0, 0, 0⟩ none ⟨none, none, true⟩ (by decide),
   config_error_signaling.2 ⟨0, 0, 9, 0, 0, "America/New_York"⟩ (by decide)
      7 2024 3⟩

theorem BusinessDayOfMonth.nthPos_weekday (t : BusinessDayOfMonth) :
    ∀ (fuel : Nat) (dt : PDateTime) (count : Int) (res : PDateTime),
    t.nthPos fuel dt count = some res → dow res < 5 := by
  intro fuel
  induction fuel with
  | zero => intro dt count res h; exact absurd h (by simp [nthPos])
  | succ k ih =>
    intro dt count res h
    unfold nthPos at h
    split_ifs at h with h1 h2
    · injection h with h3; rw [← h3]; exact h1
    · exact ih _ _ _ h
    · exact ih _ _ _ h

theorem BusinessDayOfMonth.nthNeg_weekday (t : BusinessDayOfMonth) :
    ∀ (fuel : Nat) (dt : PDateTime) (count : Int) (res : PDateTime),
    t.nthNeg fuel dt count = some res → dow res < 5 := by
  intro fuel
  induction fuel with
  | zero => intro dt count res h; exact absurd h (by simp [nthNeg])
  | succ k ih =>
    intro dt count res h
    unfold nthNeg at h
    split_ifs at h with h1 h2
    · injection h with h3; rw [← h3]; exact h1
    · exact ih _ _ _ h
    · exact ih _ _ _ h

theorem MonthlyLastDayExceptWeekend.walkBack_weekday :
    ∀ (fuel : Nat) (d res : PDateTime),
    MonthlyLastDayExceptWeekend.walkBack fuel d = some res → dow res < 5 := by
  intro fuel
  induction fuel with
  | zero => intro d res h; exact absurd h (by simp [walkBack])
  | succ k ih =>
    intro d res h
    unfold walkBack at h
    split_ifs at h with h1
    · exact ih _ _ h
    · injection h with h3; rw [← h3]; omega

/-- C8: every occurrence instant produced by `BusinessDayOfMonth` (either
ordinal direction) and by `MonthlyLastDayExceptWeekend` falls on a weekday
Monday (0) through Friday (4), never Saturday (5) or Sunday (6). -/
theorem weekend_avoidance :
    (∀ (t : BusinessDayOfMonth) (fuel : Nat) (y : Int) (m : Nat)
      (dt : PDateTime), t.getNthBusinessDay fuel y m = some dt → dow dt < 5) ∧
    (∀ (t : MonthlyLastDayExceptWeekend) (fuel : Nat) (y : Int) (m : Nat)
      (dt : PDateTime), t.getLastDay fuel y m = some dt → dow dt < 5) := by
  constructor
  · intro t fuel y m dt h
    unfold BusinessDayOfMonth.getNthBusinessDay at h
    split_ifs at h with h1
    · obtain ⟨x, hx, hfx⟩ := Option.map_eq_some'.mp h
      have hd : dow x < 5 := t.nthPos_weekday _ _ _ _ hx
      rw [← hfx]; exact hd
    all_goals
      obtain ⟨x, hx, hfx⟩ := Option.map_eq_some'.mp h
      have hd : dow x < 5 := t.nthNeg_weekday _ _ _ _ hx
      rw [← hfx]; exact hd
  · intro t fuel y m dt h
    unfold MonthlyLastDayExceptWeekend.getLastDay at h
    obtain ⟨x, hx, hfx⟩ := Option.map_eq_some'.mp h
    have hd : dow x < 5 := MonthlyLastDayExceptWeekend.walkBack_weekday _ _ _ hx
    rw [← hfx]; exact hd

/-- C8 witness: the first business day of March 2024 (Friday 2024-03-01) and
the weekend-avoided last day of March 2024 (Friday 2024-03-29). -/
theorem weekend_avoidance_witness :
    (BusinessDayOfMonth.getNthBusinessDay ⟨1, 9, 0, 0, "America/New_York"⟩
        40 2024 3 = some ⟨2024, 3, 1, 9, 0, 0⟩ ∧
      dow ⟨2024, 3, 1, 9, 0, 0⟩ < 5) ∧
    (MonthlyLastDayExceptWeekend.getLastDay ⟨18, 0, 0, "America/New_York"⟩
        10 2024 3 = some ⟨2024, 3, 29, 18, 0, 0⟩ ∧
      dow ⟨2024, 3, 29, 18, 0, 0⟩ < 5) :=
  ⟨⟨by decide, weekend_avoidance.1 ⟨1, 9, 0, 0, "America/New_York"⟩ 40 2024 3
      ⟨2024, 3, 1, 9, 0, 0⟩ (by decide)⟩,
   ⟨by decide, weekend_avoidance.2 ⟨18, 0, 0, "America/New_York"⟩ 10 2024 3
      ⟨2024, 3, 29, 18, 0, 0⟩ (by decide)⟩⟩

theorem dedupSort_idem (l : List Nat) : dedupSort (dedupSort l) = dedupSort l := by
  unfold dedupSort
  have hnd : (l.dedup.insertionSort (· ≤ ·)).Nodup :=
    (List.perm_insertionSort (· ≤ ·) l.dedup).nodup_iff.mpr (List.nodup_dedup l)
  rw [List.dedup_eq_self.mpr hnd]
  exact (List.sorted_insertionSort (· ≤ ·) l.dedup).insertionSort_eq

/-- C9 (amended): every rule variant that defines the configuration codec
round-trips exactly: deserializing the serialized parameters reproduces the
rule unchanged (for `MonthlyMultipleDays`, as produced by its constructor;
for `CronTimetable`, up to the mandatory cron key being present). -/
theorem codec_roundtrip :
    (∀ t : MonthlyLastDay, MonthlyLastDay.deserialize (t.serialize) = t) ∧
    (∀ t : MonthlyOnDay, MonthlyOnDay.deserialize (t.serialize) = t) ∧
    (∀ (days : List Nat) (hh mi ss : Nat) (tz : String),
      MonthlyMultipleDays.deserialize
        ((MonthlyMultipleDays.ofDays days hh mi ss tz).serialize) =
        MonthlyMultipleDays.ofDays days hh mi ss tz) ∧
    (∀ t : QuarterlyFirstDay, QuarterlyFirstDay.deserialize (t.serialize) = t) ∧
    (∀ t : QuarterlyLastDay, QuarterlyLastDay.deserialize (t.serialize) = t) ∧
    (∀ t : YearlyFirstDay, YearlyFirstDay.deserialize (t.serialize) = t) ∧
    (∀ t : WeeklyOnDay, WeeklyOnDay.deserialize (t.serialize) = t) ∧
    (∀ t : BiweeklyOnDay, BiweeklyOnDay.deserialize (t.serialize) = t) ∧
    (∀ t : SemiMonthly, SemiMonthly.deserialize (t.serialize) = t) ∧
    (∀ t : MonthlyWeekdayOccurrence,
      MonthlyWeekdayOccurrence.deserialize (t.serialize) = t) ∧
    (∀ t : EveryNDays, EveryNDays.deserialize (t.serialize) = t) ∧
    (∀ t : BusinessDayOfMonth, BusinessDayOfMonth.deserialize (t.serialize) = t) ∧
    (∀ t : MonthlyLastDayExceptWeekend,
      MonthlyLastDayExceptWeekend.deserialize (t.serialize) = t) ∧
    (∀ t : CronTimetable, CronTimetable.deserialize (t.serialize) = some t) ∧
    (∀ t : EveryNInterval, EveryNInterval.deserialize (t.serialize) = t) := by
  refine ⟨fun t => rfl, fun t => rfl, ?_, fun t => rfl, fun t => rfl, fun t => rfl,
    fun t => rfl, fun t => rfl, fun t => rfl, fun t => rfl, fun t => rfl,
    fun t => rfl, fun t => rfl, fun t => rfl, fun t => rfl⟩
  intro days hh mi ss tz
  simp [MonthlyMultipleDays.deserialize, MonthlyMultipleDays.serialize,
    MonthlyMultipleDays.ofDays, dedupSort_idem]

/-- C9 counterexample: `YearlyWeekdayOccurrence` defines no codec of its own,
so the framework default applies: serialization produces an empty mapping and
deserialization calls the constructor with no arguments, which fails because
`month`, `weekday` and `n` are required — the round trip loses every
parameter and produces no behaviorally identical rule. -/
theorem yearlyWeekdayOccurrence_roundtrip_fails :
    YearlyWeekdayOccurrence.deserialize
      (YearlyWeekdayOccurrence.serialize ⟨11, 0, 1, 9, 0, 0, "America/New_York"⟩)
      = none := rfl

theorem MonthlyMultipleDays.lastDayNum_eq (y : Int) (m : Nat) (h1 : 1 ≤ m)
    (h2 : m ≤ 12) : lastDayNum y m = daysInMonth y m := by
  by_cases hm : m = 12
  · subst hm; simp [lastDayNum, predDay, daysInMonth]
  · have hlt : 1 < m + 1 := by omega
    simp only [lastDayNum, if_neg hm]
    simp [predDay, hlt]

theorem filter_days_mem (days : List Nat) (d0 L : Nat) (hmem : d0 ∈ days)
    (h1 : 1 ≤ d0) (hle : d0 ≤ L) :
    days.filter (fun d => 1 ≤ d && d ≤ L) ≠ [] := by
  have hm : d0 ∈ days.filter (fun d => 1 ≤ d && d ≤ L) :=
    List.mem_filter.mpr ⟨hmem, by simp [h1, hle]⟩
  exact List.ne_nil_of_mem hm

theorem MonthlyMultipleDays.searchMonth_step (t : MonthlyMultipleDays)
    (fuel : Nat) (y : Int) (m : Nat) (hm : ¬m = 12) :
    t.searchMonth (fuel + 1) y m =
      (match t.days.filter (fun d => 1 ≤ d && d ≤ lastDayNum y (m + 1)) with
       | [] => t.searchMonth fuel y (m + 1)
       | d :: _ => some ⟨y, m + 1, d, t.hour, t.minute, t.second⟩) := by
  simp only [searchMonth, if_neg hm]

theorem MonthlyMultipleDays.searchMonth_step12 (t : MonthlyMultipleDays)
    (fuel : Nat) (y : Int) :
    t.searchMonth (fuel + 1) y 12 =
      (match t.days.filter (fun d => 1 ≤ d && d ≤ lastDayNum (y + 1) 1) with
       | [] => t.searchMonth fuel (y + 1) 1
       | d :: _ => some ⟨y + 1, 1, d, t.hour, t.minute, t.second⟩) := rfl

theorem MonthlyMultipleDays.match_isSome (t : MonthlyMultipleDays) (y' : Int)
    (m' : Nat) (alt : Option PDateTime)
    (hfil : t.days.filter (fun d => 1 ≤ d && d ≤ lastDayNum y' m') ≠ []) :
    (match t.days.filter (fun d => 1 ≤ d && d ≤ lastDayNum y' m') with
     | [] => alt
     | d :: _ =>
        some (⟨y', m', d, t.hour, t.minute, t.second⟩ : PDateTime)).isSome =
      true := by
  rcases hx : t.days.filter (fun d => 1 ≤ d && d ≤ lastDayNum y' m') with _ | ⟨a, l⟩
  · exact absurd hx hfil
  · rw [hx]; rfl

theorem MonthlyMultipleDays.searchMonth_isSome (t : MonthlyMultipleDays)
    (y : Int) (m : Nat) (h1 : 1 ≤ m) (h2 : m ≤ 12)
    (hd : ∃ d0 ∈ t.days, 1 ≤ d0 ∧ d0 ≤ 31) :
    (t.searchMonth 2 y m).isSome = true := by
  obtain ⟨d0, hmem, hd1, hd31⟩ := hd
  have hfil31 : ∀ (y' : Int) (m' : Nat), lastDayNum y' m' = 31 →
      t.days.filter (fun d => 1 ≤ d && d ≤ lastDayNum y' m') ≠ [] := by
    intro y' m' hL
    rw [hL]
    exact filter_days_mem t.days d0 31 hmem hd1 hd31
  interval_cases m
  · -- m = 1: next month 2 may be short; month 3 has 31 days
    rw [t.searchMonth_step 1 y 1 (by decide)]
    rcases hx : t.days.filter (fun d => 1 ≤ d && d ≤ lastDayNum y 2) with _ | ⟨a, l⟩
    · rw [hx]
      show (t.searchMonth 1 y 2).isSome = true
      rw [t.searchMonth_step 0 y 2 (by decide)]
      exact t.match_isSome y 3 _ (hfil31 y 3
        (by rw [lastDayNum_eq y 3 (by decide) (by decide)]; rfl))
    · rw [hx]; rfl
  · rw [t.searchMonth_step 1 y 2 (by decide)]
    exact t.match_isSome y 3 _ (hfil31 y 3
      (by rw [lastDayNum_eq y 3 (by decide) (by decide)]; rfl))
  · -- m = 3: month 4 is short; month 5 has 31 days
    rw [t.searchMonth_step 1 y 3 (by decide)]
    rcases hx : t.days.filter (fun d => 1 ≤ d && d ≤ lastDayNum y 4) with _ | ⟨a, l⟩
    · rw [hx]
      show (t.searchMonth 1 y 4).isSome = true
      rw [t.searchMonth_step 0 y 4 (by decide)]
      exact t.match_isSome y 5 _ (hfil31 y 5
        (by rw [lastDayNum_eq y 5 (by decide) (by decide)]; rfl))
    · rw [hx]; rfl
  · rw [t.searchMonth_step 1 y 4 (by decide)]
    exact t.match_isSome y 5 _ (hfil31 y 5
      (by rw [lastDayNum_eq y 5 (by decide) (by decide)]; rfl))
  · -- m = 5: month 6 is short; month 7 has 31 days
    rw [t.searchMonth_step 1 y 5 (by decide)]
    rcases hx : t.days.filter (fun d => 1 ≤ d && d ≤ lastDayNum y 6) with _ | ⟨a, l⟩
    · rw [hx]
      show (t.searchMonth 1 y 6).isSome = true
      rw [t.searchMonth_step 0 y 6 (by decide)]
      exact t.match_isSome y 7 _ (hfil31 y 7
        (by rw [lastDayNum_eq y 7 (by decide) (by decide)]; rfl))
    · rw [hx]; rfl
  · rw [t.searchMonth_step 1 y 6 (by decide)]
    exact t.match_isSome y 7 _ (hfil31 y 7
      (by rw [lastDayNum_eq y 7 (by decide) (by decide)]; rfl))
  · rw [t.searchMonth_step 1 y 7 (by decide)]
    exact t.match_isSome y 8 _ (hfil31 y 8
      (by rw [lastDayNum_eq y 8 (by decide) (by decide)]; rfl))
  · -- m = 8: month 9 is short; month 10 has 31 days
    rw [t.searchMonth_step 1 y 8 (by decide)]
    rcases hx : t.days.filter (fun d => 1 ≤ d && d ≤ lastDayNum y 9) with _ | ⟨a, l⟩
    · rw [hx]
      show (t.searchMonth 1 y 9).isSome = true
      rw [t.searchMonth_step 0 y 9 (by decide)]
      exact t.match_isSome y 10 _ (hfil31 y 10
        (by rw [lastDayNum_eq y 10 (by decide) (by decide)]; rfl))
    · rw [hx]; rfl
  · rw [t.searchMonth_step 1 y 9 (by decide)]
    exact t.match_isSome y 10 _ (hfil31 y 10
      (by rw [lastDayNum_eq y 10 (by decide) (by decide)]; rfl))
  · -- m = 10: month 11 is short; month 12 has 31 days
    rw [t.searchMonth_step 1 y 10 (by decide)]
    rcases hx : t.days.filter (fun d => 1 ≤ d && d ≤ lastDayNum y 11) with _ | ⟨a, l⟩
    · rw [hx]
      show (t.searchMonth 1 y 11).isSome = true
      rw [t.searchMonth_step 0 y 11 (by decide)]
      exact t.match_isSome y 12 _ (hfil31 y 12
        (by rw [lastDayNum_eq y 12 (by decide) (by decide)]; rfl))
    · rw [hx]; rfl
  · rw [t.searchMonth_step 1 y 11 (by decide)]
    exact t.match_isSome y 12 _ (hfil31 y 12
      (by rw [lastDayNum_eq y 12 (by decide) (by decide)]; rfl))
  · rw [t.searchMonth_step12 1 y]
    exact t.match_isSome (y + 1) 1 _ (hfil31 (y + 1) 1
      (by rw [lastDayNum_eq (y + 1) 1 (by decide) (by decide)]; rfl))

/-- C4 (amended): the evaluation loops are bounded for well-formed
configurations: `MonthlyMultipleDays._get_next_run_date` succeeds within two
month-advance iterations whenever some configured day lies in 1..31, and
`EveryNDays.infer_manual_data_interval`'s backward walk finishes within one
iteration whenever `interval_days ≥ 1`.  (For configurations outside these
conditions, such as `days = [32]` or `interval_days = 0`, the loops never
terminate — see the counterexample.) -/
theorem bounded_evaluation :
    (∀ (t : MonthlyMultipleDays) (runAfter : PDateTime), runAfter.Valid →
      (∃ d0 ∈ t.days, 1 ≤ d0 ∧ d0 ≤ 31) →
      (t.getNextRunDate runAfter 2).isSome = true) ∧
    (∀ (t : EveryNDays) (runAfter : PDateTime), runAfter.Valid →
      t.hour < 24 → t.minute < 60 → t.second < 60 → 1 ≤ t.intervalDays →
      (t.inferManualDataInterval runAfter 2).isSome = true) := by
  constructor
  · intro t runAfter hv hd
    obtain ⟨a1, a2, _⟩ := hv
    unfold MonthlyMultipleDays.getNextRunDate
    dsimp only
    rcases hf : (t.days.filter (fun d =>
        1 ≤ d && d ≤ MonthlyMultipleDays.lastDayNum runAfter.year
          runAfter.month)).find? (fun d =>
        key runAfter ≤ key ⟨runAfter.year, runAfter.month, d, t.hour, t.minute,
          t.second⟩) with _ | d
    · rw [hf]
      exact t.searchMonth_isSome runAfter.year runAfter.month a1 a2 hd
    · rw [hf]; rfl
  · intro t runAfter hv hh hmi hs hk
    have hsub : key (subDays ⟨runAfter.year, runAfter.month, runAfter.day, t.hour, t.minute, t.second⟩ t.intervalDays) ≤ key runAfter := by
      have h1 := key_subDays ⟨runAfter.year, runAfter.month, runAfter.day, t.hour, t.minute, t.second⟩ t.intervalDays hk
      have h2 : timeKey ⟨runAfter.year, runAfter.month, runAfter.day, t.hour, t.minute, t.second⟩ < 86400 := timeKey_lt _ hh hmi hs
      have h3 : dateKey (⟨runAfter.year, runAfter.month, runAfter.day, t.hour, t.minute, t.second⟩ : PDateTime) = dateKey runAfter := rfl
      unfold key at h1 ⊢
      omega
    show (Option.map _ (t.backStep 2 runAfter ⟨runAfter.year, runAfter.month, runAfter.day, t.hour, t.minute, t.second⟩)).isSome = true
    show (Option.map _ (if key runAfter < key ⟨runAfter.year, runAfter.month, runAfter.day, t.hour, t.minute, t.second⟩ then t.backStep 1 runAfter (subDays ⟨runAfter.year, runAfter.month, runAfter.day, t.hour, t.minute, t.second⟩ t.intervalDays) else some ⟨runAfter.year, runAfter.month, runAfter.day, t.hour, t.minute, t.second⟩)).isSome = true
    split_ifs with hc1
    · show (Option.map _ (if key runAfter < key (subDays ⟨runAfter.year, runAfter.month, runAfter.day, t.hour, t.minute, t.second⟩ t.intervalDays) then t.backStep 0 runAfter (subDays (subDays ⟨runAfter.year, runAfter.month, runAfter.day, t.hour, t.minute, t.second⟩ t.intervalDays) t.intervalDays) else some (subDays ⟨runAfter.year, runAfter.month, runAfter.day, t.hour, t.minute, t.second⟩ t.intervalDays))).isSome = true
      rw [if_neg (by omega)]
      rfl
    · rfl

/-- C4 witness: the amended theorem at `MonthlyMultipleDays(days=[1,15])`
searching from late January, and at `EveryNDays(interval_days=10)`. -/
theorem bounded_evaluation_witness :
    ((⟨2024, 1, 20, 0, 0, 0⟩ : PDateTime).Valid ∧
      (MonthlyMultipleDays.getNextRunDate (.ofDays [1, 15] 8 0 0 "UTC")
        ⟨2024, 1, 20, 0, 0, 0⟩ 2).isSome = true) ∧
    (EveryNDays.inferManualDataInterval ⟨10, 7, 0, 0, "UTC"⟩
      ⟨2024, 1, 5, 6, 0, 0⟩ 2).isSome = true :=
  ⟨⟨by decide, bounded_evaluation.1 (.ofDays [1, 15] 8 0 0 "UTC")
      ⟨2024, 1, 20, 0, 0, 0⟩ (by decide) ⟨1, by decide, by decide, by decide⟩⟩,
   bounded_evaluation.2 ⟨10, 7, 0, 0, "UTC"⟩ ⟨2024, 1, 5, 6, 0, 0⟩ (by decide)
      (by decide) (by decide) (by decide) (by decide)⟩

theorem timeKey_addDays (d : PDateTime) (n : Nat) :
    timeKey (addDays d n) = timeKey d := by
  unfold timeKey
  rw [hour_addDays, minute_addDays, second_addDays]

theorem baselineResolved_valid (now : PDateTime) (r : TimeRestriction)
    (hvnow : now.Valid) (hve : ∀ e, r.earliest = some e → e.Valid) :
    (baselineResolved now r).Valid := by
  unfold baselineResolved
  rcases he : r.earliest with _ | e
  · dsimp only [Option.getD]
    split_ifs <;> exact hvnow
  · have hv := hve e he
    dsimp only [Option.getD]
    split_ifs <;> assumption

theorem EveryNInterval.alignedGrid_isGrid (t : EveryNInterval) (b : PDateTime) :
    ∃ k : Nat, t.alignedGrid b =
      addMinutes ⟨b.year, b.month, b.day, 0, 0, 0⟩ (k * t.totalMinutes) := by
  unfold alignedGrid
  dsimp only
  split_ifs with h
  · refine ⟨(b.hour * 60 + b.minute) / t.totalMinutes + 1, ?_⟩
    rw [addMinutes_addMinutes, Nat.succ_mul]
  · exact ⟨(b.hour * 60 + b.minute) / t.totalMinutes, rfl⟩

theorem EveryNInterval.le_alignedGrid (t : EveryNInterval) (b : PDateTime)
    (hvb : b.Valid) (htot : 0 < t.totalMinutes) :
    key b ≤ key (t.alignedGrid b) := by
  obtain ⟨b1, b2, b3, b4, b5, b6, b7⟩ := hvb
  unfold alignedGrid
  dsimp only
  split_ifs with hpc
  · have hq1 : (b.hour * 60 + b.minute) / t.totalMinutes * t.totalMinutes ≤
        b.hour * 60 + b.minute := Nat.div_mul_le_self _ _
    have hq2 : b.hour * 60 + b.minute <
        (b.hour * 60 + b.minute) / t.totalMinutes * t.totalMinutes +
          t.totalMinutes := by
      have h2 : (b.hour * 60 + b.minute) % t.totalMinutes < t.totalMinutes :=
        Nat.mod_lt _ htot
      calc b.hour * 60 + b.minute
          = t.totalMinutes * ((b.hour * 60 + b.minute) / t.totalMinutes) +
              (b.hour * 60 + b.minute) % t.totalMinutes :=
            (Nat.div_add_mod _ _).symm
      _ < t.totalMinutes * ((b.hour * 60 + b.minute) / t.totalMinutes) +
            t.totalMinutes := Nat.add_lt_add_left h2 _
      _ = (b.hour * 60 + b.minute) / t.totalMinutes * t.totalMinutes +
            t.totalMinutes := by rw [Nat.mul_comm]
    generalize hX : (b.hour * 60 + b.minute) / t.totalMinutes * t.totalMinutes = X
      at hq1 hq2 hpc ⊢
    have hX1440 : X < 1440 := by omega
    have hpre : addMinutes ⟨b.year, b.month, b.day, 0, 0, 0⟩ X =
        ⟨b.year, b.month, b.day, X % 1440 / 60, X % 60, 0⟩ := by
      unfold addMinutes
      dsimp only
      rw [Nat.zero_mul, Nat.zero_add, Nat.div_eq_of_lt hX1440]
      rfl
    rw [hpre] at hpc ⊢
    unfold addMinutes
    dsimp only
    have hXe : X % 1440 / 60 * 60 + X % 60 + t.totalMinutes =
        X + t.totalMinutes := by omega
    rw [hXe]
    by_cases hcar : X + t.totalMinutes < 1440
    · rw [Nat.div_eq_of_lt hcar]
      show key b ≤ key (⟨b.year, b.month, b.day,
        (X + t.totalMinutes) % 1440 / 60, (X + t.totalMinutes) % 60, 0⟩ : PDateTime)
      unfold key dateKey timeKey
      dsimp only
      omega
    · have hdd : 1 ≤ (X + t.totalMinutes) / 1440 := by omega
      have hvz : (⟨b.year, b.month, b.day, (X + t.totalMinutes) % 1440 / 60,
          (X + t.totalMinutes) % 60, 0⟩ : PDateTime).Valid := by
        refine ⟨b1, b2, b3, b4, ?_, ?_, ?_⟩ <;> (dsimp only; omega)
      have hdk := dateKey_addDays
        ⟨b.year, b.month, b.day, (X + t.totalMinutes) % 1440 / 60,
          (X + t.totalMinutes) % 60, 0⟩ ((X + t.totalMinutes) / 1440) hvz
      have hdkz : dateKey (⟨b.year, b.month, b.day,
          (X + t.totalMinutes) % 1440 / 60, (X + t.totalMinutes) % 60, 0⟩ :
          PDateTime) = dateKey b := rfl
      have htkb : timeKey b < 86400 := timeKey_lt b b5 b6 b7
      unfold key
      omega
  · omega

theorem valid_addMinutes (d : PDateTime) (n : Nat) (hv : d.Valid) :
    (addMinutes d n).Valid := by
  obtain ⟨h1, h2, h3, h4, h5, h6, h7⟩ := hv
  unfold addMinutes
  dsimp only
  apply valid_addDays
  exact ⟨h1, h2, h3, h4, by dsimp only; omega, by dsimp only; omega, h7⟩

theorem key_le_addMinutes (d : PDateTime) (n : Nat) (hv : d.Valid) :
    key d ≤ key (addMinutes d n) := by
  obtain ⟨h1, h2, h3, h4, h5, h6, h7⟩ := hv
  unfold addMinutes
  dsimp only
  by_cases hc : (d.hour * 60 + d.minute + n) / 1440 = 0
  · rw [hc]
    show key d ≤ key (⟨d.year, d.month, d.day,
      (d.hour * 60 + d.minute + n) % 1440 / 60,
      (d.hour * 60 + d.minute + n) % 60, d.second⟩ : PDateTime)
    unfold key dateKey timeKey
    dsimp only
    omega
  · have hdd : 1 ≤ (d.hour * 60 + d.minute + n) / 1440 := by omega
    have hvz : (⟨d.year, d.month, d.day,
        (d.hour * 60 + d.minute + n) % 1440 / 60,
        (d.hour * 60 + d.minute + n) % 60, d.second⟩ : PDateTime).Valid :=
      ⟨h1, h2, h3, h4, by dsimp only; omega, by dsimp only; omega, h7⟩
    have hdk := dateKey_addDays ⟨d.year, d.month, d.day,
      (d.hour * 60 + d.minute + n) % 1440 / 60,
      (d.hour * 60 + d.minute + n) % 60, d.second⟩
      ((d.hour * 60 + d.minute + n) / 1440) hvz
    have hdkz : dateKey (⟨d.year, d.month, d.day,
        (d.hour * 60 + d.minute + n) % 1440 / 60,
        (d.hour * 60 + d.minute + n) % 60, d.second⟩ : PDateTime) =
        dateKey d := rfl
    have htkd : timeKey d < 86400 := timeKey_lt d h5 h6 h7
    unfold key
    omega

theorem key_addMinutes_mono (d : PDateTime) (n1 n2 : Nat) (hv : d.Valid)
    (h : n1 ≤ n2) : key (addMinutes d n1) ≤ key (addMinutes d n2) := by
  have hk := key_le_addMinutes (addMinutes d n1) (n2 - n1) (valid_addMinutes d n1 hv)
  rw [addMinutes_addMinutes] at hk
  rw [show n1 + (n2 - n1) = n2 from by omega] at hk
  exact hk

theorem addMinutes_midnight (b : PDateTime) (X : Nat) (hX : X < 1440) :
    addMinutes ⟨b.year, b.month, b.day, 0, 0, 0⟩ X =
      ⟨b.year, b.month, b.day, X % 1440 / 60, X % 60, 0⟩ := by
  unfold addMinutes
  dsimp only
  rw [Nat.zero_mul, Nat.zero_add, Nat.div_eq_of_lt hX]
  rfl

theorem EveryNInterval.alignedGrid_least (t : EveryNInterval) (b : PDateTime)
    (hvb : b.Valid) (htot : 0 < t.totalMinutes) :
    ∀ k' : Nat,
      key b ≤ key (addMinutes ⟨b.year, b.month, b.day, 0, 0, 0⟩
        (k' * t.totalMinutes)) →
      key (t.alignedGrid b) ≤
        key (addMinutes ⟨b.year, b.month, b.day, 0, 0, 0⟩
          (k' * t.totalMinutes)) := by
  intro k' hk'
  obtain ⟨b1, b2, b3, b4, b5, b6, b7⟩ := hvb
  have hvanchor : (⟨b.year, b.month, b.day, 0, 0, 0⟩ : PDateTime).Valid :=
    ⟨b1, b2, b3, b4, by dsimp only; omega, by dsimp only; omega,
      by dsimp only; omega⟩
  have hq1 : (b.hour * 60 + b.minute) / t.totalMinutes * t.totalMinutes ≤
      b.hour * 60 + b.minute := Nat.div_mul_le_self _ _
  unfold alignedGrid
  dsimp only
  split_ifs with hpc
  · rcases Nat.lt_or_ge k'
        ((b.hour * 60 + b.minute) / t.totalMinutes + 1) with hlt | hge
    · exfalso
      have hmul : k' * t.totalMinutes ≤
          (b.hour * 60 + b.minute) / t.totalMinutes * t.totalMinutes :=
        Nat.mul_le_mul (by omega) (le_refl _)
      have hmono := key_addMinutes_mono ⟨b.year, b.month, b.day, 0, 0, 0⟩
        (k' * t.totalMinutes)
        ((b.hour * 60 + b.minute) / t.totalMinutes * t.totalMinutes)
        hvanchor hmul
      omega
    · have hcomp : addMinutes (addMinutes ⟨b.year, b.month, b.day, 0, 0, 0⟩
          ((b.hour * 60 + b.minute) / t.totalMinutes * t.totalMinutes))
          t.totalMinutes =
          addMinutes ⟨b.year, b.month, b.day, 0, 0, 0⟩
            (((b.hour * 60 + b.minute) / t.totalMinutes + 1) *
              t.totalMinutes) := by
        rw [addMinutes_addMinutes, Nat.succ_mul]
      rw [hcomp]
      exact key_addMinutes_mono _ _ _ hvanchor (Nat.mul_le_mul hge (le_refl _))
  · rcases Nat.lt_or_ge k'
        ((b.hour * 60 + b.minute) / t.totalMinutes) with hlt | hge
    · exfalso
      have hks : k' * t.totalMinutes + t.totalMinutes ≤
          (b.hour * 60 + b.minute) / t.totalMinutes * t.totalMinutes := by
        have h1 : (k' + 1) * t.totalMinutes ≤
            (b.hour * 60 + b.minute) / t.totalMinutes * t.totalMinutes :=
          Nat.mul_le_mul (by omega) (le_refl _)
        calc k' * t.totalMinutes + t.totalMinutes
            = (k' + 1) * t.totalMinutes := by rw [Nat.succ_mul]
        _ ≤ _ := h1
      generalize hQ : (b.hour * 60 + b.minute) / t.totalMinutes *
        t.totalMinutes = Q at hq1 hks
      have hX' : k' * t.totalMinutes < 1440 := by omega
      rw [addMinutes_midnight b (k' * t.totalMinutes) hX'] at hk'
      generalize hgen : k' * t.totalMinutes = X at hk' hks hX'
      unfold key dateKey timeKey at hk'
      dsimp only at hk'
      omega
    · exact key_addMinutes_mono _ _ _ hvanchor (Nat.mul_le_mul hge (le_refl _))

/-- C10: for `EveryNInterval` with a positive interval and a supplied last
automated interval, a produced run's start equals the maximum of the last
interval's end and the midnight-anchored grid point `g` at or after the
resolved baseline (`g` lies on the grid, is at or after the baseline, and is
the least grid point with that property); in particular when the last
interval's end exceeds `g`, the start is exactly the last interval's end
(and hence need not lie on the grid). -/
theorem everyNInterval_next_start_max (t : EveryNInterval) (now : PDateTime)
    (l : DataInterval) (r : TimeRestriction) (info : DataInterval)
    (hvnow : now.Valid) (hve : ∀ e, r.earliest = some e → e.Valid)
    (htot : 0 < t.totalMinutes)
    (hres : t.nextDagrunInfo now (some l) r = .ok (some info)) :
    ∃ g : PDateTime,
      (∃ k : Nat, g = addMinutes ⟨(baselineResolved now r).year,
        (baselineResolved now r).month, (baselineResolved now r).day, 0, 0, 0⟩
        (k * t.totalMinutes)) ∧
      key (baselineResolved now r) ≤ key g ∧
      (∀ k' : Nat,
        key (baselineResolved now r) ≤
          key (addMinutes ⟨(baselineResolved now r).year,
            (baselineResolved now r).month, (baselineResolved now r).day,
            0, 0, 0⟩ (k' * t.totalMinutes)) →
        key g ≤ key (addMinutes ⟨(baselineResolved now r).year,
          (baselineResolved now r).month, (baselineResolved now r).day,
          0, 0, 0⟩ (k' * t.totalMinutes))) ∧
      (info.start = g ∨ info.start = l.stop) ∧
      key info.start = max (key l.stop) (key g) ∧
      (key g < key l.stop → info.start = l.stop) := by
  unfold EveryNInterval.nextDagrunInfo at hres
  rw [if_neg (by omega : ¬t.totalMinutes = 0)] at hres
  dsimp only at hres
  have hmain : info.start =
      (if key l.stop < key (t.alignedGrid (baselineResolved now r)) then
        t.alignedGrid (baselineResolved now r) else l.stop) := by
    rcases hlat : r.latest with _ | lt
    · rw [hlat] at hres
      dsimp only at hres
      simp only [Except.ok.injEq, Option.some.injEq] at hres
      rw [← hres]
    · rw [hlat] at hres
      dsimp only at hres
      split_ifs at hres with h1 h2 h3
      · exact absurd hres (by simp)
      · simp only [Except.ok.injEq, Option.some.injEq] at hres
        rw [if_pos h1, ← hres]
      · exact absurd hres (by simp)
      · simp only [Except.ok.injEq, Option.some.injEq] at hres
        rw [if_neg h1, ← hres]
  refine ⟨t.alignedGrid (baselineResolved now r),
    t.alignedGrid_isGrid (baselineResolved now r),
    t.le_alignedGrid (baselineResolved now r)
      (baselineResolved_valid now r hvnow hve) htot,
    t.alignedGrid_least (baselineResolved now r)
      (baselineResolved_valid now r hvnow hve) htot, ?_, ?_, ?_⟩
  · rw [hmain]
    split_ifs
    · exact Or.inl rfl
    · exact Or.inr rfl
  · rw [hmain]
    split_ifs with hc
    · rw [max_eq_right (le_of_lt hc)]
    · rw [max_eq_left (not_lt.mp hc)]
  · intro hg
    rw [hmain, if_neg (by omega)]

/-- C10 witness: interval 90 minutes, baseline 2024-01-01T01:00 (grid point
01:30), last interval ending 04:00: the produced start is 04:00, the last
interval's end, off the 90-minute grid. -/
theorem everyNInterval_next_start_max_witness :
    (⟨2024, 1, 1, 1, 0, 0⟩ : PDateTime).Valid ∧
    0 < EveryNInterval.totalMinutes ⟨90, 0, "UTC"⟩ ∧
    EveryNInterval.nextDagrunInfo ⟨90, 0, "UTC"⟩ ⟨2024, 1, 1, 1, 0, 0⟩
      (some ⟨⟨2024, 1, 1, 0, 0, 0⟩, ⟨2024, 1, 1, 4, 0, 0⟩⟩) ⟨none, none, true⟩ =
      .ok (some ⟨⟨2024, 1, 1, 4, 0, 0⟩, ⟨2024, 1, 1, 5, 30, 0⟩⟩) ∧
    (∃ g : PDateTime,
      (∃ k : Nat, g = addMinutes ⟨(baselineResolved ⟨2024, 1, 1, 1, 0, 0⟩
          ⟨none, none, true⟩).year,
        (baselineResolved ⟨2024, 1, 1, 1, 0, 0⟩ ⟨none, none, true⟩).month,
        (baselineResolved ⟨2024, 1, 1, 1, 0, 0⟩ ⟨none, none, true⟩).day, 0, 0, 0⟩
        (k * EveryNInterval.totalMinutes ⟨90, 0, "UTC"⟩)) ∧
      key (baselineResolved ⟨2024, 1, 1, 1, 0, 0⟩ ⟨none, none, true⟩) ≤ key g ∧
      (∀ k' : Nat,
        key (baselineResolved ⟨2024, 1, 1, 1, 0, 0⟩ ⟨none, none, true⟩) ≤
          key (addMinutes ⟨(baselineResolved ⟨2024, 1, 1, 1, 0, 0⟩
              ⟨none, none, true⟩).year,
            (baselineResolved ⟨2024, 1, 1, 1, 0, 0⟩ ⟨none, none, true⟩).month,
            (baselineResolved ⟨2024, 1, 1, 1, 0, 0⟩ ⟨none, none, true⟩).day,
            0, 0, 0⟩ (k' * EveryNInterval.totalMinutes ⟨90, 0, "UTC"⟩)) →
        key g ≤ key (addMinutes ⟨(baselineResolved ⟨2024, 1, 1, 1, 0, 0⟩
              ⟨none, none, true⟩).year,
            (baselineResolved ⟨2024, 1, 1, 1, 0, 0⟩ ⟨none, none, true⟩).month,
            (baselineResolved ⟨2024, 1, 1, 1, 0, 0⟩ ⟨none, none, true⟩).day,
            0, 0, 0⟩ (k' * EveryNInterval.totalMinutes ⟨90, 0, "UTC"⟩))) ∧
      ((⟨⟨2024, 1, 1, 4, 0, 0⟩, ⟨2024, 1, 1, 5, 30, 0⟩⟩ : DataInterval).start = g ∨
       (⟨⟨2024, 1, 1, 4, 0, 0⟩, ⟨2024, 1, 1, 5, 30, 0⟩⟩ : DataInterval).start =
         (⟨⟨2024, 1, 1, 0, 0, 0⟩, ⟨2024, 1, 1, 4, 0, 0⟩⟩ : DataInterval).stop) ∧
      key (⟨⟨2024, 1, 1, 4, 0, 0⟩, ⟨2024, 1, 1, 5, 30, 0⟩⟩ : DataInterval).start =
        max (key (⟨⟨2024, 1, 1, 0, 0, 0⟩, ⟨2024, 1, 1, 4, 0, 0⟩⟩ :
          DataInterval).stop) (key g) ∧
      (key g < key (⟨⟨2024, 1, 1, 0, 0, 0⟩, ⟨2024, 1, 1, 4, 0, 0⟩⟩ :
          DataInterval).stop →
        (⟨⟨2024, 1, 1, 4, 0, 0⟩, ⟨2024, 1, 1, 5, 30, 0⟩⟩ : DataInterval).start =
          (⟨⟨2024, 1, 1, 0, 0, 0⟩, ⟨2024, 1, 1, 4, 0, 0⟩⟩ : DataInterval).stop)) :=
  ⟨by decide, by decide, by decide,
   everyNInterval_next_start_max ⟨90, 0, "UTC"⟩ ⟨2024, 1, 1, 1, 0, 0⟩
     ⟨⟨2024, 1, 1, 0, 0, 0⟩, ⟨2024, 1, 1, 4, 0, 0⟩⟩ ⟨none, none, true⟩
     ⟨⟨2024, 1, 1, 4, 0, 0⟩, ⟨2024, 1, 1, 5, 30, 0⟩⟩ (by decide)
     (fun e he => by cases he) (by decide) (by decide)⟩

example : dow ⟨2024, 1, 1, 0, 0, 0⟩ = 0 := by decide
example : dow ⟨2024, 3, 1, 0, 0, 0⟩ = 4 := by decide
example : dow ⟨1970, 1, 1, 0, 0, 0⟩ = 3 := by decide
example : succDay ⟨2024, 2, 28, 5, 0, 0⟩ = ⟨2024, 2, 29, 5, 0, 0⟩ := by decide
example : succDay ⟨2023, 2, 28, 5, 0, 0⟩ = ⟨2023, 3, 1, 5, 0, 0⟩ := by decide
example : predDay ⟨2024, 3, 1, 5, 0, 0⟩ = ⟨2024, 2, 29, 5, 0, 0⟩ := by decide
example : addMinutes ⟨2024, 1, 31, 23, 30, 7⟩ 60 = ⟨2024, 2, 1, 0, 30, 7⟩ := by decide

-- Spec scenario check: MonthlyLastDay hour=18 minute=30, reference
-- 2024-02-10T00:00 gives January's last-day occurrence 2024-01-31T18:30.
example :
    (MonthlyLastDay.inferManualDataInterval ⟨18, 30, 0, "UTC"⟩
      ⟨2024, 2, 10, 0, 0, 0⟩).start = ⟨2024, 1, 31, 18, 30, 0⟩ := by decide

example :
    (WeeklyOnDay.inferManualDataInterval ⟨0, 8, 0, 0, "UTC"⟩
      ⟨2024, 1, 3, 0, 0, 0⟩).start = ⟨2024, 1, 8, 8, 0, 0⟩ := by decide

example :
    MonthlyMultipleDays.getNextRunDate (.ofDays [1, 15] 8 0 0 "UTC")
      ⟨2024, 1, 20, 0, 0, 0⟩ 5 = some ⟨2024, 2, 1, 8, 0, 0⟩ := by decide

example :
    MonthlyMultipleDays.getNextRunDate (.ofDays [32] 0 0 0 "UTC")
      ⟨2024, 1, 15, 0, 0, 0⟩ 100 = none := by decide

-- Spec scenario: NthWeekdayOfMonth weekday=Monday(0) n=2 hour=9 in 2024-03
-- gives the second Monday, 2024-03-11T09:00.
example :
    MonthlyWeekdayOccurrence.getNthWeekday ⟨0, 2, 9, 0, 0, "UTC"⟩ 40 2024 3 =
      some ⟨2024, 3, 11, 9, 0, 0⟩ := by decide

-- n = 0 never yields a result (and raises nothing): the backward scan with
-- count starting at -1 can never match.
example :
    MonthlyWeekdayOccurrence.getNthWeekday ⟨0, 0, 9, 0, 0, "UTC"⟩ 100 2024 3 =
      none := by decide

example :
    BusinessDayOfMonth.getNthBusinessDay ⟨-1, 17, 0, 0, "UTC"⟩ 40 2024 3 =
      some ⟨2024, 3, 29, 17, 0, 0⟩ := by decide

-- 2024-03-31 is a Sunday: the last-day-except-weekend walk lands on Friday
-- 2024-03-29.
example :
    MonthlyLastDayExceptWeekend.getLastDay ⟨18, 0, 0, "UTC"⟩ 10 2024 3 =
      some ⟨2024, 3, 29, 18, 0, 0⟩ := by decide

-- Spec scenario: EveryNInterval 90 minutes, baseline 01:00 -> start 01:30.
example :
    EveryNInterval.nextDagrunInfo ⟨90, 0, "UTC"⟩ ⟨2024, 1, 1, 1, 0, 0⟩ none
      ⟨none, none, true⟩ =
      .ok (some ⟨⟨2024, 1, 1, 1, 30, 0⟩, ⟨2024, 1, 1, 3, 0, 0⟩⟩) := by decide

example :
    EveryNDays.inferManualDataInterval ⟨10, 7, 0, 0, "UTC"⟩
      ⟨2024, 1, 5, 6, 0, 0⟩ 3 =
      some ⟨⟨2023, 12, 26, 7, 0, 0⟩, ⟨2024, 1, 5, 7, 0, 0⟩⟩ := by decide
